import Mathlib

/-
Verification development for the `europeana-fulltext-aggregations` repository.

The Lean definitions below are a shallow embedding of the Python sources:
  * `src/fulltext-aggregation/image/src/common.py` (normalization utilities), and
  * `src/image/src/aggregation_cmdi_creation.py` (record and collection builders).

Modelling conventions:
  * Python strings are Lean `String`s (lists of Unicode scalar values); regex
    character classes are modelled character by character.  The Python class
    `A-z` covers code points 65..122 (it includes the brackets, backslash,
    caret, underscore and backtick between `Z` and `a`); `\d` is modelled as
    the decimal digits `0`-`9`.
  * Python `re` semantics are embedded explicitly: `re.match` anchors at the
    start; `$` matches at the end of the string or just before a final
    newline; `.` matches any character except a newline; `re.search` finds
    the leftmost match.
  * Python dicts (the records map, the resolved-references map, the
    year-to-filename map) are ordered association lists, mirroring the
    insertion-ordered iteration of Python 3 dicts.
  * External collaborators (the IIIF annotation resolver, the XML file
    parser, environment-variable configuration, the current date) are
    parameters of the embedded functions.
  * Exceptions escaping a function (e.g. `IndexError` from indexation of an
    empty list) are modelled by `Option`/`Except`: `none` / `.error ()`
    means the Python code raises.
-/

/-! ## Character-class helpers (Python regex classes used by `common.py`) -/

/-- The regex class `A-z` used (likely unintentionally) by `xml_id` in
`common.py`: all code points between `'A'` (65) and `'z'` (122), which
includes `[`, `\`, `]`, `^`, `_` and the backtick besides the ASCII
letters. -/
def isAzChar (c : Char) : Bool := 65 ≤ c.toNat && c.toNat ≤ 122

/-- The regex class `\d`, modelled as the ASCII decimal digits
(code points 48..57). -/
def isDigitChar (c : Char) : Bool := 48 ≤ c.toNat && c.toNat ≤ 57

/-! ## `common.py`: identifier and date utilities -/

/-- Membership in the class `[A-z0-9_]` kept by `re.sub` in `xml_id`. -/
def keepChar (c : Char) : Bool := isAzChar c || isDigitChar c || c == '_'

/-- The substitution `re.sub('[^A-z0-9_]', '_', ...)`, per character. -/
def substChar (c : Char) : Char := if keepChar c then c else '_'

/-- `common.xml_id`:
```python
def xml_id(identifier):
    new_id = identifier
    if not re.match(r"^[A-z_]", identifier):
        new_id = "_" + identifier
    return re.sub('[^A-z0-9_]', '_', new_id)
``` -/
def xml_id (identifier : String) : String :=
  let cs := identifier.data
  -- re.match(r"^[A-z_]", identifier): does the string start with a char of class [A-z_]?
  let startsOk : Bool :=
    match cs with
    | [] => false
    | c :: _ => isAzChar c || c == '_'
  let new_id := if startsOk then cs else '_' :: cs
  -- re.sub('[^A-z0-9_]', '_', new_id): replace every char outside [A-z0-9_] by '_'
  ⟨new_id.map substChar⟩

/-- Python `$` may match just before a single final newline; an anchored
trailing match therefore operates on the string with one final newline
removed. -/
def stripFinalNewline (cs : List Char) : List Char :=
  if cs.getLast? = some '\n' then cs.dropLast else cs

/-- The maximal digit run at the end of a character list (the only text the
group `(\d+)$` can capture). -/
def trailingDigitRun (cs : List Char) : List Char :=
  (cs.reverse.takeWhile isDigitChar).reverse

/-- Does the literal `http` occur at position `s0`? -/
def httpOccursAt (cs : List Char) (s0 : Nat) : Bool :=
  (cs.drop s0).take 4 == ['h', 't', 't', 'p']

/-- Can the regex `http.*` reach position `q` (where `[^\d]` must match)?
There must be an occurrence of `http` ending at or before `q`, and `.`
cannot cross a newline between that occurrence and `q`. -/
def httpReachable (cs : List Char) (q : Nat) : Bool :=
  (List.range (q + 1)).any fun s0 =>
    decide (s0 + 4 ≤ q) && httpOccursAt cs s0 &&
      ((cs.drop (s0 + 4)).take (q - (s0 + 4))).all (fun c => c != '\n')

/-- `common.normalize_identifier`:
```python
def normalize_identifier(identifier):
    match = re.search(r"http.*[^\d](\d+)$", identifier)
    if match:
        return match.group(1)
    else:
        return identifier
```
Since `(\d+)$` must consume a nonempty digit run extending to the end (or
to just before a final newline), a match forces the group to be the maximal
trailing digit run of the newline-stripped string, with the `[^\d]`
character landing on the character right before that run; `http.*` must
then reach that character without `.` crossing a newline. -/
def normalize_identifier (identifier : String) : String :=
  let body := stripFinalNewline identifier.data
  let run := trailingDigitRun body
  if run.length = 0 ∨ run.length = body.length then identifier
  else if httpReachable body (body.length - run.length - 1) then ⟨run⟩ else identifier

/-- Does the pattern `\d{4}-\d{2}-\d{2}` match at the start of the list?
False whenever fewer than ten characters remain; characters after the
first ten are ignored (the pattern has no trailing anchor). -/
def dateShape : List Char → Bool
  | c0 :: c1 :: c2 :: c3 :: c4 :: c5 :: c6 :: c7 :: c8 :: c9 :: _ =>
    isDigitChar c0 && isDigitChar c1 && isDigitChar c2 && isDigitChar c3 &&
    (c4 == '-') && isDigitChar c5 && isDigitChar c6 && (c7 == '-') &&
    isDigitChar c8 && isDigitChar c9
  | _ => false

/-- Does the pattern `\d{4}-\d{2}-\d{2}` match starting at position `i`? -/
def dateShapeAt (cs : List Char) (i : Nat) : Bool := dateShape (cs.drop i)

/-- `common.date_to_year`:
```python
def date_to_year(date):
    match = re.search(r"(\d{4})-\d{2}-\d{2}", date)
    if match:
        return match.group(1)
    else:
        return None
```
`re.search` is unanchored: it returns the leftmost occurrence anywhere in
the string. -/
def date_to_year (date : String) : Option String :=
  match (List.range date.data.length).find? (fun i => dateShapeAt date.data i) with
  | some i => some ⟨(date.data.drop i).take 4⟩
  | none => none

/-- `common.is_valid_date`:
```python
def is_valid_date(date):
    return re.match(r"(^\d{4})-\d{2}-\d{2}$", date) is not None
```
`re.match` anchors at the start; after consuming ten characters, `$`
accepts either the true end of the string or the position just before a
single final newline. -/
def is_valid_date (date : String) : Bool :=
  dateShapeAt date.data 0 &&
    (date.data.length == 10 ||
      (date.data.length == 11 && date.data.getD 10 ' ' == '\n'))

/-! ## Decimal rendering of natural numbers (Python `str`/f-string of an `int`) -/

/-- The character for one decimal digit. -/
def digitChar (d : Nat) : Char :=
  match d with
  | 0 => '0' | 1 => '1' | 2 => '2' | 3 => '3' | 4 => '4'
  | 5 => '5' | 6 => '6' | 7 => '7' | 8 => '8' | 9 => '9'
  | _ => '*'

/-- Fuel-driven digit accumulation; `fuel` bounds the recursion depth. -/
def natReprAux : Nat → Nat → List Char
  | 0, _ => []
  | fuel + 1, n =>
    if n < 10 then [digitChar n]
    else natReprAux fuel (n / 10) ++ [digitChar (n % 10)]

/-- Decimal rendering of a natural number, as Python's `str` of a
nonnegative `int` (used by the f-string in `make_ref_xml_id`). -/
def natRepr (n : Nat) : String := ⟨natReprAux (n + 1) n⟩

/-! ## Spec-side predicates (used to state claims, not taken from the code) -/

/-- The pattern `^[A-Za-z_][A-Za-z0-9_]*$` claimed for `xml_id` output:
a first character that is an ASCII letter or underscore, and every
character an ASCII letter, digit or underscore. -/
def matchesClaimedXmlIdPattern (s : String) : Bool :=
  (match s.data with
   | [] => false
   | c :: _ => c.isAlpha || c == '_') &&
  s.data.all (fun c => c.isAlpha || c.isDigit || c == '_')

/-- Full-string `YYYY-MM-DD` shape: exactly ten characters matching
`\d{4}-\d{2}-\d{2}`. -/
def isStrictDateShape (s : String) : Bool :=
  dateShapeAt s.data 0 && s.data.length == 10

/-- The string contains a `\d{4}-\d{2}-\d{2}`-shaped substring somewhere. -/
def HasDateShapedSubstring (s : String) : Prop :=
  ∃ a y m d b : List Char,
    s.data = a ++ y ++ ['-'] ++ m ++ ['-'] ++ d ++ b ∧
    y.length = 4 ∧ m.length = 2 ∧ d.length = 2 ∧
    (∀ c ∈ y, isDigitChar c) ∧ (∀ c ∈ m, isDigitChar c) ∧ (∀ c ∈ d, isDigitChar c)

/-! ## String ordering (Python compares strings lexicographically by code point) -/

/-- Lexicographic "less or equal" on character lists, by code point —
exactly the comparison Python's `sorted` uses on strings. -/
def lexLe : List Char → List Char → Bool
  | [], _ => true
  | _ :: _, [] => false
  | a :: as, b :: bs =>
    if a.toNat < b.toNat then true
    else if a.toNat = b.toNat then lexLe as bs else false

/-- Python's `<=` on strings. -/
def strLe (a b : String) : Bool := lexLe a.data b.data

/-- Insert into a sorted list, keeping earlier-inserted equal elements first
(the stability of Python's sort; keys of a dict are distinct, so stability
is irrelevant here). -/
def insertSorted (a : String) : List String → List String
  | [] => [a]
  | b :: bs => if strLe a b then a :: b :: bs else b :: insertSorted a bs

/-- Python's `sorted` on a list of strings (ascending, by code point). -/
def sortedStrings : List String → List String
  | [] => []
  | a :: as => insertSorted a (sortedStrings as)

/-! ## `aggregation_cmdi_creation.py`: constants and resource proxies -/

def LANDING_PAGE_ID : String := "landing_page"

def EDM_DUMP_PROXY_ID : String := "archive_edm"

def ALTO_DUMP_PROXY_ID : String := "archive_alto"

def DUMP_MEDIA_TYPE : String := "application/zip"

/-- `os.path.basename(__file__)` for the generator script. -/
def SCRIPT_FILE_NAME : String := "aggregation_cmdi_creation.py"

def make_edm_dump_ref (collection_id : String) : String :=
  "ftp://download.europeana.eu/newspapers/fulltext/edm_issue/" ++ collection_id ++ ".zip"

def make_alto_dump_ref (collection_id : String) : String :=
  "ftp://download.europeana.eu/newspapers/fulltext/alto/" ++ collection_id ++ ".zip"

/-- `make_ref_xml_id(record_id, index)`: `xml_id(f"{record_id}_anno{index}")`. -/
def make_ref_xml_id (record_id : String) (index : Nat) : String :=
  xml_id (record_id ++ "_anno" ++ natRepr index)

/-- One `(ref, label)` pair describing an annotation resource. -/
abbrev LabeledRef := String × String

/-- One `cmd:ResourceProxy` element: id attribute, `ResourceType` text,
`ResourceRef` text, and the optional `mimetype` attribute. -/
structure ResourceProxy where
  id : String
  resourceType : String
  ref : String
  mediaType : Option String
deriving DecidableEq, Repr

/-- `insert_resource_proxy`: appends one proxy element to the
`ResourceProxyList`. -/
def insert_resource_proxy (parent : List ResourceProxy)
    (proxy_id resource_type ref : String) (media_type : Option String) :
    List ResourceProxy :=
  parent ++ [{ id := proxy_id, resourceType := resource_type, ref := ref,
               mediaType := media_type }]

/-- One entry of the records map: `{file, manifest_urls}` (both optional). -/
structure RecordEntry where
  file : Option String
  manifest_urls : Option (List String)
deriving DecidableEq

/-- The records map `{identifier -> {file, manifest_urls}}`, as an
insertion-ordered association list (a Python 3 dict iterates in insertion
order). -/
abbrev RecordsMap := List (String × RecordEntry)

/-- `retrieve_iiif_annotation_refs`: the annotation-resolver adapter.  The
external `retrieve_iiif_annotations.retrieve_annotation_refs(url, session)`
collaborator is the parameter `resolve` (a list of results per manifest
URL, possibly containing `none` entries, which are dropped). -/
def retrieve_iiif_annotation_refs (resolve : String → List (Option LabeledRef))
    (records : RecordsMap) : List (String × List LabeledRef) :=
  records.foldl
    (fun labeled_refs r =>
      match r.2.manifest_urls with
      | none => labeled_refs      -- logged warning, no entry added
      | some manifest_urls =>
        let url_labeled_refs :=
          ((manifest_urls.map resolve).flatten).filterMap (fun x => x)
        if url_labeled_refs.length > 0 then labeled_refs ++ [(r.1, url_labeled_refs)]
        else labeled_refs)
    []

/-- `insert_resource_proxies`: the landing page, the two archive dumps, and
then — iterating the resolved-references map in order — one `Resource`
proxy per labeled reference, with a 1-based per-identifier index.
`landing_page_url` is the environment-derived `LANDING_PAGE_URL`. -/
def insert_resource_proxies (resource_proxies_list : List ResourceProxy)
    (landing_page_url collection_id : String)
    (labeled_refs : List (String × List LabeledRef)) : List ResourceProxy :=
  let l1 := insert_resource_proxy resource_proxies_list LANDING_PAGE_ID
    "LandingPage" landing_page_url none
  let l2 := insert_resource_proxy l1 EDM_DUMP_PROXY_ID "Resource"
    (make_edm_dump_ref collection_id) (some DUMP_MEDIA_TYPE)
  let l3 := insert_resource_proxy l2 ALTO_DUMP_PROXY_ID "Resource"
    (make_alto_dump_ref collection_id) (some DUMP_MEDIA_TYPE)
  labeled_refs.foldl
    (fun acc kv =>
      (kv.2.foldl
        (fun st l_ref =>
          (insert_resource_proxy st.1 (make_ref_xml_id kv.1 (st.2 + 1))
            "Resource" l_ref.1 none, st.2 + 1))
        (acc, 0)).1)
    l3

/-! ## Header population -/

/-- The four header placeholder elements of a template copy; `none` means
the placeholder element is absent from the template, `some t` that it is
present with text `t`. -/
structure CmdiHeader where
  mdCreator : Option String
  mdCreationDate : Option String
  mdSelfLink : Option String
  mdCollectionDisplayName : Option String
deriving DecidableEq, Repr

/-- `set_metadata_headers`.  Each `xpath` call returns the list of matching
placeholder elements; `element_list[0].text = ...` raises `IndexError`
(modelled by `none`) when the list is empty.  NOTE the faithful bug: in the
source the self-link assignment is guarded by `if creation_date_header:`
instead of `if selflink_header:`.  `cmdi_records_base_url`, `today` and
`collection_display_name` are the environment-derived values
`CMDI_RECORDS_BASE_URL`, `today_string()` and `COLLECTION_DISPLAY_NAME`. -/
def set_metadata_headers (cmdi_records_base_url today collection_display_name : String)
    (doc : CmdiHeader) (collection_id record_file_name : String) : Option CmdiHeader :=
  let doc1 := if doc.mdCreator.isSome
    then { doc with mdCreator := some SCRIPT_FILE_NAME } else doc
  let doc2 := if doc1.mdCreationDate.isSome
    then { doc1 with mdCreationDate := some today } else doc1
  -- bug preserved from the source: the guard tests `creation_date_header`
  if doc2.mdCreationDate.isSome then
    match doc2.mdSelfLink with
    | none => none        -- selflink_header[0] raises IndexError
    | some _ =>
      let link := cmdi_records_base_url ++ "/" ++ collection_id ++ "/" ++ record_file_name
      let doc3 := { doc2 with mdSelfLink := some link }
      some (if doc3.mdCollectionDisplayName.isSome
        then { doc3 with mdCollectionDisplayName := some collection_display_name }
        else doc3)
  else
    some (if doc2.mdCollectionDisplayName.isSome
      then { doc2 with mdCollectionDisplayName := some collection_display_name }
      else doc2)

/-! ## Record-level build -/

/-- A (copy of a) single-record CMDI document, at the granularity the
claims need: the header placeholders, the contents of every
`cmd:ResourceProxyList` element, and the number of `cmdp:TextResource`
components roots.  The component content of the `TextResource` profile is
not modelled: no claim refers to it, and `insert_component_content` cannot
fail and touches no modelled field. -/
structure CmdiDoc where
  header : CmdiHeader
  proxyLists : List (List ResourceProxy)
  componentsRootCount : Nat
deriving DecidableEq, Repr

/-- `load_emd_records`: parses the `file` entry of every record (relative
to `metadata_dir`), skipping records with no file name and files that fail
to parse.  The external XML parser is the parameter `parses`; a parsed
document is represented by its file path (its content feeds only
unmodelled component fields). -/
def load_emd_records (parses : String → Bool) (records_map : RecordsMap)
    (metadata_dir : String) : List String :=
  records_map.foldl
    (fun edm_records r =>
      match r.2.file with
      | none => edm_records          -- logged error, record omitted
      | some file_name =>
        if parses (metadata_dir ++ "/" ++ file_name)
        then edm_records ++ [metadata_dir ++ "/" ++ file_name]
        else edm_records)            -- logged parse error, record omitted
    []

/-- `make_cmdi_record`.  `Except.error ()` models an uncaught Python
exception escaping the call; `Except.ok none` models `return None`. -/
def make_cmdi_record (resolve : String → List (Option LabeledRef))
    (parses : String → Bool)
    (cmdi_records_base_url today collection_display_name landing_page_url : String)
    (record_file_name : String) (template : CmdiDoc)
    (collection_id title year : String) (records : RecordsMap)
    (metadata_dir : String) : Except Unit (Option CmdiDoc) :=
  let cmdi_file := template    -- deepcopy(template)
  let labeled_refs := retrieve_iiif_annotation_refs resolve records
  if labeled_refs.length = 0 then Except.ok none
  else
    match set_metadata_headers cmdi_records_base_url today collection_display_name
        cmdi_file.header collection_id record_file_name with
    | none => Except.error ()
    | some header1 =>
      let cmdi1 : CmdiDoc := { cmdi_file with header := header1 }
      match cmdi1.proxyLists with
      | [resource_proxies] =>
        let cmdi2 : CmdiDoc := { cmdi1 with proxyLists :=
          [insert_resource_proxies resource_proxies landing_page_url collection_id
            labeled_refs] }
        if cmdi2.componentsRootCount = 1 then
          let _edm_records := load_emd_records parses records metadata_dir
          -- insert_component_content populates only unmodelled component fields
          Except.ok (some cmdi2)
        else Except.ok none    -- "Expecting exactly one components root element"
      | _ => Except.ok none    -- wrong number of ResourceProxyList elements

/-! ## Collection-level build -/

/-- A `TemporalCoverage` component: label, `Start/year` and `End/year`. -/
structure TempCoverage where
  label : String
  startYear : String
  endYear : String
deriving DecidableEq, Repr

/-- One `Subresource` component: its `cmd:ref` attribute, its description
label, and the optional nested temporal-coverage label. -/
structure SubresourceInfo where
  ref : String
  label : String
  temporalLabel : Option String
deriving DecidableEq, Repr

/-- The `cmdp_c:MetadataCollection` components root, at the granularity the
claims need.  The keyword/publisher/language/country/licence children and
the static metadata-information block are not modelled: no claim refers to
them and their insertion cannot fail. -/
structure MetadataCollectionComponents where
  titleInfo : Option String
  description : Option String
  temporalCoverage : Option TempCoverage
  subresources : List SubresourceInfo
deriving DecidableEq, Repr

/-- `collection_insert_resource_proxies`: landing page, the two dumps, and
one `Metadata` proxy per year in ascending sorted key order, with id
`xml_id(year)` and reference `{base}/{collection_id}/{year_files[year]}`. -/
def collection_insert_resource_proxies (cmdi_records_base_url landing_page_url : String)
    (resource_proxies_list : List ResourceProxy)
    (year_files : List (String × String)) (collection_id : String) :
    List ResourceProxy :=
  let l1 := insert_resource_proxy resource_proxies_list LANDING_PAGE_ID
    "LandingPage" landing_page_url none
  let l2 := insert_resource_proxy l1 EDM_DUMP_PROXY_ID "Resource"
    (make_edm_dump_ref collection_id) (some DUMP_MEDIA_TYPE)
  let l3 := insert_resource_proxy l2 ALTO_DUMP_PROXY_ID "Resource"
    (make_alto_dump_ref collection_id) (some DUMP_MEDIA_TYPE)
  (sortedStrings (year_files.map Prod.fst)).foldl
    (fun acc year =>
      insert_resource_proxy acc (xml_id year) "Metadata"
        (cmdi_records_base_url ++ "/" ++ collection_id ++ "/" ++
          ((year_files.lookup year).getD "")) none)
    l3

/-- `collection_insert_title_and_description` (years comma-joined). -/
def collection_insert_title_and_description (comps : MetadataCollectionComponents)
    (title : String) (years : List String) : MetadataCollectionComponents :=
  { comps with
    titleInfo := some title,
    description := some ("Full text content aggregated from Europeana. Title: \"" ++
      title ++ "\". Years: " ++ String.intercalate ", " years ++ ".") }

/-- `collection_insert_temporal_coverage`. -/
def collection_insert_temporal_coverage (comps : MetadataCollectionComponents)
    (year_lower year_higher : String) : MetadataCollectionComponents :=
  let tc : TempCoverage := { label := year_lower ++ " - " ++ year_higher,
                             startYear := year_lower, endYear := year_higher }
  { comps with temporalCoverage := some tc }

/-- `insert_dump_subresource_info`: the two fixed dump subresources. -/
def insert_dump_subresource_info (comps : MetadataCollectionComponents) :
    MetadataCollectionComponents :=
  { comps with subresources := comps.subresources ++
    [{ ref := EDM_DUMP_PROXY_ID,
       label := "Archive containing full text content in EDM format which includes this title",
       temporalLabel := none },
     { ref := ALTO_DUMP_PROXY_ID,
       label := "Archive containing full text content in ALTO format which includes this title",
       temporalLabel := none }] }

/-- `collection_insert_subresource_info`: the dump subresources, then one
subresource per year in ascending sorted order. -/
def collection_insert_subresource_info (comps : MetadataCollectionComponents)
    (title : String) (year_files : List (String × String)) :
    MetadataCollectionComponents :=
  let comps1 := insert_dump_subresource_info comps
  (sortedStrings (year_files.map Prod.fst)).foldl
    (fun c year =>
      { c with subresources := c.subresources ++
        [{ ref := xml_id year, label := title ++ " - " ++ year,
           temporalLabel := some year }] })
    comps1

/-- `collection_insert_component_content`.  `sorted_years[0]` (and
`sorted_years[-1]`) raise `IndexError` on an empty list, modelled by
`none`; the builder performs no emptiness check of its own. -/
def collection_insert_component_content (comps : MetadataCollectionComponents)
    (title : String) (sorted_years : List String)
    (year_files : List (String × String)) : Option MetadataCollectionComponents :=
  let comps1 := collection_insert_title_and_description comps title sorted_years
  -- keywords / publisher / languages: populated from the EDM records, unmodelled
  match sorted_years with
  | [] => none    -- sorted_years[0] raises IndexError
  | y0 :: rest =>
    let comps2 := collection_insert_temporal_coverage comps1 y0
      ((y0 :: rest).getLast (List.cons_ne_nil y0 rest))
    -- countries / licences: populated from the EDM records, unmodelled
    let comps3 := collection_insert_subresource_info comps2 title year_files
    -- insert_metadata_info: static block, unmodelled
    some comps3

/-- A (copy of a) collection-record CMDI document. -/
structure CollectionDoc where
  header : CmdiHeader
  proxyLists : List (List ResourceProxy)
  componentsRootCount : Nat
  components : MetadataCollectionComponents
deriving DecidableEq, Repr

/-- `make_collection_record`.  `Except.error ()` models an uncaught Python
exception escaping the call; `Except.ok none` models `return None`. -/
def make_collection_record (parses : String → Bool)
    (cmdi_records_base_url today collection_display_name landing_page_url : String)
    (file_name : String) (template : CollectionDoc) (collection_id title : String)
    (year_files : List (String × String)) (input_record_map : RecordsMap)
    (metadata_dir : String) : Except Unit (Option CollectionDoc) :=
  let cmdi_file := template    -- deepcopy(template)
  match set_metadata_headers cmdi_records_base_url today collection_display_name
      cmdi_file.header collection_id file_name with
  | none => Except.error ()
  | some header1 =>
    let doc1 : CollectionDoc := { cmdi_file with header := header1 }
    match doc1.proxyLists with
    | [resource_proxies] =>
      let doc2 : CollectionDoc := { doc1 with proxyLists :=
        [collection_insert_resource_proxies cmdi_records_base_url landing_page_url
          resource_proxies year_files collection_id] }
      if doc2.componentsRootCount = 1 then
        let _edm_records := load_emd_records parses input_record_map metadata_dir
        match collection_insert_component_content doc2.components title
            (sortedStrings (year_files.map Prod.fst)) year_files with
        | none => Except.error ()
        | some comps => Except.ok (some { doc2 with components := comps })
      else Except.ok none    -- "Expecting exactly one components root element"
    | _ => Except.ok none    -- wrong number of ResourceProxyList elements

/-! ## Spec-side descriptions of the emitted proxies -/

/-- Pair every element with its index, starting at `n`. -/
def withIdx (n : Nat) : List LabeledRef → List (Nat × LabeledRef)
  | [] => []
  | a :: as => (n, a) :: withIdx (n + 1) as

/-- The landing-page proxy. -/
def landingProxy (landing_page_url : String) : ResourceProxy :=
  { id := LANDING_PAGE_ID, resourceType := "LandingPage",
    ref := landing_page_url, mediaType := none }

/-- The EDM archive-dump proxy. -/
def edmDumpProxy (collection_id : String) : ResourceProxy :=
  { id := EDM_DUMP_PROXY_ID, resourceType := "Resource",
    ref := make_edm_dump_ref collection_id, mediaType := some DUMP_MEDIA_TYPE }

/-- The ALTO archive-dump proxy. -/
def altoDumpProxy (collection_id : String) : ResourceProxy :=
  { id := ALTO_DUMP_PROXY_ID, resourceType := "Resource",
    ref := make_alto_dump_ref collection_id, mediaType := some DUMP_MEDIA_TYPE }

/-- The annotation proxies for one entry of the resolved-references map:
one `Resource` proxy per labeled reference, with the 1-based index within
that identifier's reference list. -/
def annotationProxies (kv : String × List LabeledRef) : List ResourceProxy :=
  (withIdx 1 kv.2).map (fun p =>
    { id := make_ref_xml_id kv.1 p.1, resourceType := "Resource",
      ref := p.2.1, mediaType := none })

/-- All resource proxies of a record document, in document order. -/
def docProxies (doc : CmdiDoc) : List ResourceProxy := doc.proxyLists.flatten

/-- The id attributes of all resource proxies of a record document. -/
def docProxyIds (doc : CmdiDoc) : List String := (docProxies doc).map ResourceProxy.id

/-- All resource proxies of a collection document, in document order. -/
def collProxies (doc : CollectionDoc) : List ResourceProxy := doc.proxyLists.flatten

/-- The `Metadata`-type proxy emitted for one year of a collection record. -/
def metadataYearProxy (cmdi_records_base_url collection_id : String)
    (year_files : List (String × String)) (year : String) : ResourceProxy :=
  { id := xml_id year, resourceType := "Metadata",
    ref := cmdi_records_base_url ++ "/" ++ collection_id ++ "/" ++
      ((year_files.lookup year).getD ""), mediaType := none }

/-- The proxy ids of the document produced by a record-level build
(empty when the build produced no document). -/
def resultProxyIds (r : Except Unit (Option CmdiDoc)) : List String :=
  match r with
  | Except.ok (some doc) => docProxyIds doc
  | _ => []

/-- Did a record-level build produce a document? -/
def resultIsDoc (r : Except Unit (Option CmdiDoc)) : Bool :=
  match r with
  | Except.ok (some _) => true
  | _ => false

/-- The temporal coverage of the document produced by a collection-level
build (`none` when the build produced no document or no coverage). -/
def collTemporal (r : Except Unit (Option CollectionDoc)) : Option TempCoverage :=
  match r with
  | Except.ok (some doc) => doc.components.temporalCoverage
  | _ => none

/-- The resource-proxy lists of the document produced by a collection-level
build (empty when the build produced no document). -/
def collProxyLists (r : Except Unit (Option CollectionDoc)) : List (List ResourceProxy) :=
  match r with
  | Except.ok (some doc) => doc.proxyLists
  | _ => []

/-! # Theorems

Helper lemmas first, then one theorem per claim (with witnesses and
counterexamples as needed). -/

/-! ## Helper lemmas: characters and decimal renderings -/

theorem digitChar_isDigit {d : Nat} (h : d < 10) : isDigitChar (digitChar d) = true := by
  interval_cases d <;> decide

theorem digitChar_inj {d1 d2 : Nat} (h1 : d1 < 10) (h2 : d2 < 10) :
    digitChar d1 = digitChar d2 → d1 = d2 := by
  interval_cases d1 <;> interval_cases d2 <;> decide

theorem map_digitChar_inj : ∀ {l1 l2 : List Nat}, (∀ x ∈ l1, x < 10) →
    (∀ x ∈ l2, x < 10) → l1.map digitChar = l2.map digitChar → l1 = l2 := by
  intro l1
  induction l1 with
  | nil => intro l2 _ _ h; cases l2 <;> simp_all
  | cons a as ih =>
    intro l2 h1 h2 h
    cases l2 with
    | nil => simp_all
    | cons b bs =>
      simp only [List.map_cons, List.cons.injEq] at h
      have ha : a = b := digitChar_inj (h1 a (by simp)) (h2 b (by simp)) h.1
      have : as = bs := ih (fun x hx => h1 x (by simp [hx])) (fun x hx => h2 x (by simp [hx])) h.2
      simp [ha, this]

theorem natReprAux_eq_digits : ∀ fuel n, 0 < n → n ≤ fuel →
    natReprAux fuel n = ((Nat.digits 10 n).map digitChar).reverse := by
  intro fuel
  induction fuel with
  | zero => intro n h1 h2; omega
  | succ fuel ih =>
    intro n h1 h2
    by_cases h : n < 10
    · rw [Nat.digits_def' (by norm_num : (1:ℕ) < 10) h1]
      have hd : n / 10 = 0 := by omega
      have hm : n % 10 = n := by omega
      simp [natReprAux, h, hd, hm]
    · have h10 : (10:ℕ) ≤ n := by omega
      rw [Nat.digits_def' (by norm_num : (1:ℕ) < 10) h1]
      have hrec := ih (n / 10) (by omega) (by omega)
      simp [natReprAux, h, hrec]

theorem natReprAux_all_digits : ∀ fuel n c, c ∈ natReprAux fuel n →
    isDigitChar c = true := by
  intro fuel
  induction fuel with
  | zero => intro n c h; simp [natReprAux] at h
  | succ fuel ih =>
    intro n c h
    by_cases hn : n < 10
    · simp [natReprAux, hn] at h
      exact h ▸ digitChar_isDigit hn
    · simp [natReprAux, hn] at h
      rcases h with h | h
      · exact ih _ _ h
      · exact h ▸ digitChar_isDigit (Nat.mod_lt _ (by omega))

theorem natRepr_all_digits (n : Nat) : ∀ c ∈ (natRepr n).data, isDigitChar c = true := by
  intro c hc
  exact natReprAux_all_digits (n + 1) n c hc

theorem natRepr_ne_nil (n : Nat) : (natRepr n).data ≠ [] := by
  show natReprAux (n + 1) n ≠ []
  by_cases hn : n < 10 <;> simp [natReprAux, hn]

theorem natRepr_inj {m n : Nat} (h : natRepr m = natRepr n) : m = n := by
  have hd : natReprAux (m + 1) m = natReprAux (n + 1) n := congrArg String.data h
  by_cases hm : m = 0 <;> by_cases hn : n = 0
  · omega
  · exfalso
    subst hm
    rw [natReprAux_eq_digits (n + 1) n (by omega) (by omega)] at hd
    have hd' : (List.map digitChar (Nat.digits 10 n)).reverse = ['0'] := hd.symm
    have hlen : (Nat.digits 10 n).length = 1 := by
      have := congrArg List.length hd'
      simpa using this
    obtain ⟨d, hdig⟩ := List.length_eq_one.mp hlen
    rw [hdig] at hd'
    simp only [List.map_cons, List.map_nil, List.reverse_cons, List.reverse_nil,
      List.nil_append, List.cons.injEq] at hd'
    have hd10 : d < 10 := @Nat.digits_lt_base 10 n d (by norm_num) (by simp [hdig])
    have : d = 0 := digitChar_inj hd10 (by norm_num) (hd'.1.trans rfl)
    rw [this] at hdig
    have h0 := congrArg (Nat.ofDigits 10) hdig
    rw [Nat.ofDigits_digits] at h0
    simp [Nat.ofDigits] at h0
    exact hn h0
  · exfalso
    subst hn
    rw [natReprAux_eq_digits (m + 1) m (by omega) (by omega)] at hd
    have hd' : (List.map digitChar (Nat.digits 10 m)).reverse = ['0'] := hd
    have hlen : (Nat.digits 10 m).length = 1 := by
      have := congrArg List.length hd'
      simpa using this
    obtain ⟨d, hdig⟩ := List.length_eq_one.mp hlen
    rw [hdig] at hd'
    simp only [List.map_cons, List.map_nil, List.reverse_cons, List.reverse_nil,
      List.nil_append, List.cons.injEq] at hd'
    have hd10 : d < 10 := @Nat.digits_lt_base 10 m d (by norm_num) (by simp [hdig])
    have : d = 0 := digitChar_inj hd10 (by norm_num) (hd'.1.trans rfl)
    rw [this] at hdig
    have h0 := congrArg (Nat.ofDigits 10) hdig
    rw [Nat.ofDigits_digits] at h0
    simp [Nat.ofDigits] at h0
    exact hm h0
  · rw [natReprAux_eq_digits (m + 1) m (by omega) (by omega),
      natReprAux_eq_digits (n + 1) n (by omega) (by omega)] at hd
    have hmap := List.reverse_injective hd
    have hdig : Nat.digits 10 m = Nat.digits 10 n :=
      map_digitChar_inj (fun x hx => Nat.digits_lt_base (by norm_num) hx)
        (fun x hx => Nat.digits_lt_base (by norm_num) hx) hmap
    have := congrArg (Nat.ofDigits 10) hdig
    rwa [Nat.ofDigits_digits, Nat.ofDigits_digits] at this

/-! ## Helper lemmas: `xml_id` -/

theorem keepChar_underscore : keepChar '_' = true := by decide

theorem keepChar_of_digit {c : Char} (h : isDigitChar c = true) : keepChar c = true := by
  simp [keepChar, h]

theorem substChar_eq_self {c : Char} (h : keepChar c = true) : substChar c = c := by
  simp [substChar, h]

theorem keepChar_substChar (c : Char) : keepChar (substChar c) = true := by
  by_cases h : keepChar c = true
  · rw [substChar_eq_self h]
    exact h
  · have hu : substChar c = '_' := by simp [substChar, h]
    rw [hu]
    exact keepChar_underscore

theorem map_substChar_id : ∀ {l : List Char}, (∀ x ∈ l, keepChar x = true) →
    l.map substChar = l := by
  intro l
  induction l with
  | nil => intro _; rfl
  | cons a as ih =>
    intro h
    simp only [List.map_cons, List.cons.injEq]
    exact ⟨substChar_eq_self (h a (by simp)), ih (fun x hx => h x (by simp [hx]))⟩

theorem digit_not_xml_id_start {c : Char} (h : isDigitChar c = true) :
    (isAzChar c || c == '_') = false := by
  simp only [isDigitChar, Bool.and_eq_true, decide_eq_true_eq] at h
  simp only [isAzChar, Bool.or_eq_false_iff, Bool.and_eq_false_iff]
  constructor
  · left
    simpa using by omega
  · simp only [beq_eq_false_iff_ne, ne_eq]
    rintro rfl
    revert h
    decide

/-- The pre-substitution character list built inside `xml_id`. -/
theorem xml_id_data_eq (value : String) :
    (xml_id value).data =
      (if (match value.data with
           | [] => false
           | c :: _ => isAzChar c || c == '_') = true
       then value.data else '_' :: value.data).map substChar := rfl

theorem xml_id_data_of_digit_head (s : String) (c : Char) (rest : List Char)
    (hcs : s.data = c :: rest) (hc : isDigitChar c = true)
    (hkeep : ∀ x ∈ s.data, keepChar x = true) :
    (xml_id s).data = '_' :: s.data := by
  have hstart : (isAzChar c || c == '_') = false := digit_not_xml_id_start hc
  rw [xml_id_data_eq, hcs]
  simp only [hstart, Bool.false_eq_true, if_false]
  have hall : ∀ x ∈ '_' :: c :: rest, keepChar x = true := by
    intro x hx
    rcases List.mem_cons.mp hx with h | h
    · exact h ▸ keepChar_underscore
    · exact hkeep x (by rw [hcs]; exact h)
  rw [map_substChar_id hall]

theorem keepChar_anno : ∀ c ∈ ("_anno" : String).data, keepChar c = true := by decide

theorem make_ref_xml_id_data (k : String) (i : Nat) (c : Char) (rest : List Char)
    (hk : k.data = c :: rest) (hc : isDigitChar c = true)
    (hdig : ∀ x ∈ k.data, isDigitChar x = true) :
    (make_ref_xml_id k i).data = '_' :: (k.data ++ "_anno".data ++ (natRepr i).data) := by
  have hdata : (k ++ "_anno" ++ natRepr i).data = k.data ++ "_anno".data ++ (natRepr i).data := by
    rw [String.data_append, String.data_append]
  have hhead : (k ++ "_anno" ++ natRepr i).data = c :: (rest ++ "_anno".data ++ (natRepr i).data) := by
    rw [hdata, hk]
    simp
  have hkeep : ∀ x ∈ (k ++ "_anno" ++ natRepr i).data, keepChar x = true := by
    intro x hx
    rw [hdata] at hx
    rcases List.mem_append.mp hx with hx | hx
    · rcases List.mem_append.mp hx with hx | hx
      · exact keepChar_of_digit (hdig x hx)
      · exact keepChar_anno x hx
    · exact keepChar_of_digit (natRepr_all_digits i x hx)
  have := xml_id_data_of_digit_head (k ++ "_anno" ++ natRepr i) c
    (rest ++ "_anno".data ++ (natRepr i).data) hhead hc hkeep
  rw [make_ref_xml_id, this, hdata]

/-! ## Claim C4 -/

/-- C4, counterexample: `xml_id "["` returns `"["` unchanged (the `[` falls
inside the regex class `A-z`), which does not match the claimed pattern
`^[A-Za-z_][A-Za-z0-9_]*$`. -/
theorem claim_C4_counterexample :
    xml_id "[" = "[" ∧ matchesClaimedXmlIdPattern (xml_id "[") = false := by
  constructor
  · decide
  · decide

/-- C4 (amended): for every input string `value`, `xml_id value` is a
nonempty string whose first character lies in the regex class `[A-z_]`
(code points 65..122, or the underscore — this class also contains `[`,
`\`, `]`, `^` and the backtick) and whose every character lies in the class
`[A-z0-9_]`, obtained by prefixing `'_'` when `value` does not start with a
character of `[A-z_]` and then replacing every character outside
`[A-z0-9_]` with `'_'`.  (The claimed ASCII-letter classes `[A-Za-z_]` /
`[A-Za-z0-9_]` are refuted by `claim_C4_counterexample`.) -/
theorem claim_C4_xml_id_class (value : String) :
    (xml_id value).data ≠ [] ∧
    (∀ c, (xml_id value).data.head? = some c → (isAzChar c || c == '_') = true) ∧
    (∀ c ∈ (xml_id value).data, keepChar c = true) := by
  have hall : ∀ c ∈ (xml_id value).data, keepChar c = true := by
    intro c hc
    rw [xml_id_data_eq] at hc
    obtain ⟨x, _, hx⟩ := List.mem_map.mp hc
    exact hx ▸ keepChar_substChar x
  refine ⟨?_, ?_, hall⟩
  · rw [xml_id_data_eq]
    cases hcs : value.data with
    | nil => simp
    | cons c rest =>
      by_cases hstart : (isAzChar c || c == '_') = true <;> simp [hstart]
  · intro c0 hc0
    rw [xml_id_data_eq] at hc0
    revert hc0
    cases hcs : value.data with
    | nil =>
      intro h
      simp only [Bool.false_eq_true, if_false, List.map_cons, List.map_nil,
        List.head?_cons, Option.some.injEq] at h
      rw [substChar_eq_self keepChar_underscore] at h
      rw [← h]
      decide
    | cons c rest =>
      by_cases hstart : (isAzChar c || c == '_') = true
      · simp only [hstart, if_true, List.map_cons, List.head?_cons, Option.some.injEq]
        intro h
        rw [← h, substChar_eq_self]
        · exact hstart
        · rcases Bool.or_eq_true_iff.mp hstart with h' | h' <;> simp [keepChar, h']
      · rw [Bool.not_eq_true] at hstart
        simp only [hstart, Bool.false_eq_true, if_false, List.map_cons,
          List.head?_cons, Option.some.injEq]
        intro h
        rw [substChar_eq_self keepChar_underscore] at h
        rw [← h]
        decide

/-! ## Helper lemmas: `normalize_identifier` -/

theorem trailingDigitRun_all (cs : List Char) :
    ∀ c ∈ trailingDigitRun cs, isDigitChar c = true := by
  intro c hc
  rw [trailingDigitRun, List.mem_reverse] at hc
  exact List.mem_takeWhile_imp hc

theorem trailingDigitRun_of_all {cs : List Char}
    (h : ∀ c ∈ cs, isDigitChar c = true) : trailingDigitRun cs = cs := by
  rw [trailingDigitRun, List.takeWhile_eq_self_iff.mpr, List.reverse_reverse]
  intro a ha
  exact h a (List.mem_reverse.mp ha)

theorem stripFinalNewline_of_digits {cs : List Char}
    (h : ∀ c ∈ cs, isDigitChar c = true) : stripFinalNewline cs = cs := by
  rw [stripFinalNewline]
  cases hl : cs.getLast? with
  | none => simp
  | some a =>
    have hd := h a (List.mem_of_mem_getLast? (by rw [hl]; rfl))
    have hne : a ≠ '\n' := by
      rintro rfl
      revert hd
      decide
    simp [hne]

/-- The branches of `normalize_identifier`, spelled out. -/
theorem normalize_identifier_eq (identifier : String) :
    normalize_identifier identifier =
      (if (trailingDigitRun (stripFinalNewline identifier.data)).length = 0 ∨
          (trailingDigitRun (stripFinalNewline identifier.data)).length =
            (stripFinalNewline identifier.data).length
       then identifier
       else if httpReachable (stripFinalNewline identifier.data)
              ((stripFinalNewline identifier.data).length -
                (trailingDigitRun (stripFinalNewline identifier.data)).length - 1)
       then ⟨trailingDigitRun (stripFinalNewline identifier.data)⟩
       else identifier) := rfl

/-! ## Claim C7 -/

/-- C7 (confirmed): `normalize_identifier` is idempotent.  When the regex
matches, the returned group is a nonempty all-digit string, on which a
second application cannot match (it contains no `http`, indeed no
non-digit), so the value is returned unchanged; when the regex does not
match, the identifier is returned unchanged. -/
theorem claim_C7_normalize_identifier_idempotent (identifier : String) :
    normalize_identifier (normalize_identifier identifier) =
      normalize_identifier identifier := by
  by_cases h1 : (trailingDigitRun (stripFinalNewline identifier.data)).length = 0 ∨
      (trailingDigitRun (stripFinalNewline identifier.data)).length =
        (stripFinalNewline identifier.data).length
  · have e1 : normalize_identifier identifier = identifier := by
      rw [normalize_identifier_eq, if_pos h1]
    rw [e1]
    exact e1
  · by_cases h2 : httpReachable (stripFinalNewline identifier.data)
        ((stripFinalNewline identifier.data).length -
          (trailingDigitRun (stripFinalNewline identifier.data)).length - 1) = true
    · have e1 : normalize_identifier identifier =
          ⟨trailingDigitRun (stripFinalNewline identifier.data)⟩ := by
        rw [normalize_identifier_eq, if_neg h1, if_pos h2]
      rw [e1]
      have hdig : ∀ c ∈ trailingDigitRun (stripFinalNewline identifier.data),
          isDigitChar c = true := trailingDigitRun_all _
      have hdata : (⟨trailingDigitRun (stripFinalNewline identifier.data)⟩ : String).data =
          trailingDigitRun (stripFinalNewline identifier.data) := rfl
      rw [normalize_identifier_eq, hdata, stripFinalNewline_of_digits hdig,
        trailingDigitRun_of_all hdig, if_pos (Or.inr rfl)]
    · have e1 : normalize_identifier identifier = identifier := by
        rw [normalize_identifier_eq, if_neg h1, if_neg h2]
      rw [e1]
      exact e1

/-! ## Helper lemmas: booleans -/

theorem bool_and_mp {a b : Bool} (h : (a && b) = true) : a = true ∧ b = true := by
  simp at h
  exact h

theorem bool_and_mpr {a b : Bool} (h1 : a = true) (h2 : b = true) : (a && b) = true := by
  simp [h1, h2]

theorem bool_or_mp {a b : Bool} (h : (a || b) = true) : a = true ∨ b = true := by
  simpa using h

theorem bool_or_mpr {a b : Bool} (h : a = true ∨ b = true) : (a || b) = true := by
  rcases h with h | h <;> simp [h]

/-! ## Helper lemmas: date shapes -/

theorem exists_cons_of_len {α : Type} (l : List α) (n : Nat) (h : l.length = n + 1) :
    ∃ c t, l = c :: t ∧ t.length = n := by
  cases l with
  | nil => simp at h
  | cons c t => exact ⟨c, t, rfl, by simpa using h⟩

theorem dateShape_decomp (t : List Char) (h : dateShape t = true) :
    ∃ c0 c1 c2 c3 c4 c5 c6 c7 c8 c9 rest,
      t = c0 :: c1 :: c2 :: c3 :: c4 :: c5 :: c6 :: c7 :: c8 :: c9 :: rest ∧
      isDigitChar c0 = true ∧ isDigitChar c1 = true ∧ isDigitChar c2 = true ∧
      isDigitChar c3 = true ∧ c4 = '-' ∧ isDigitChar c5 = true ∧
      isDigitChar c6 = true ∧ c7 = '-' ∧ isDigitChar c8 = true ∧
      isDigitChar c9 = true := by
  rcases t with _|⟨c0,_|⟨c1,_|⟨c2,_|⟨c3,_|⟨c4,_|⟨c5,_|⟨c6,_|⟨c7,_|⟨c8,_|⟨c9,rest⟩⟩⟩⟩⟩⟩⟩⟩⟩⟩ <;>
    simp only [dateShape, Bool.and_eq_true, beq_iff_eq, Bool.false_eq_true] at h
  exact ⟨c0, c1, c2, c3, c4, c5, c6, c7, c8, c9, rest, rfl,
    h.1.1.1.1.1.1.1.1.1, h.1.1.1.1.1.1.1.1.2, h.1.1.1.1.1.1.1.2, h.1.1.1.1.1.1.2,
    h.1.1.1.1.1.2, h.1.1.1.1.2, h.1.1.1.2, h.1.1.2, h.1.2, h.2⟩

theorem dateShape_build (c0 c1 c2 c3 c5 c6 c8 c9 : Char) (rest : List Char)
    (h0 : isDigitChar c0 = true) (h1 : isDigitChar c1 = true)
    (h2 : isDigitChar c2 = true) (h3 : isDigitChar c3 = true)
    (h5 : isDigitChar c5 = true) (h6 : isDigitChar c6 = true)
    (h8 : isDigitChar c8 = true) (h9 : isDigitChar c9 = true) :
    dateShape (c0 :: c1 :: c2 :: c3 :: '-' :: c5 :: c6 :: '-' :: c8 :: c9 :: rest) = true := by
  simp [dateShape, h0, h1, h2, h3, h5, h6, h8, h9]

theorem hasDate_iff (s : String) :
    HasDateShapedSubstring s ↔ ∃ i, dateShapeAt s.data i = true := by
  constructor
  · rintro ⟨a, y, m, d, b, heq, hy, hm, hd, digy, digm, digd⟩
    obtain ⟨y0, y', hcy0, hy'⟩ := exists_cons_of_len y 3 hy
    obtain ⟨y1, y'', hcy1, hy''⟩ := exists_cons_of_len y' 2 hy'
    obtain ⟨y2, y3l, hcy2, hy3l⟩ := exists_cons_of_len y'' 1 hy''
    obtain ⟨y3, ynil, hcy3, hynil⟩ := exists_cons_of_len y3l 0 hy3l
    obtain ⟨m0, m', hcm0, hm'⟩ := exists_cons_of_len m 1 hm
    obtain ⟨m1, mnil, hcm1, hmnil⟩ := exists_cons_of_len m' 0 hm'
    obtain ⟨d0, d', hcd0, hd'⟩ := exists_cons_of_len d 1 hd
    obtain ⟨d1, dnil, hcd1, hdnil⟩ := exists_cons_of_len d' 0 hd'
    rw [List.length_eq_zero] at hynil hmnil hdnil
    subst hcy0 hcy1 hcy2 hcy3 hynil hcm0 hcm1 hmnil hcd0 hcd1 hdnil
    refine ⟨a.length, ?_⟩
    show dateShape (s.data.drop a.length) = true
    rw [heq]
    simp only [List.append_assoc]
    rw [List.drop_left]
    simp only [List.cons_append, List.nil_append]
    exact dateShape_build y0 y1 y2 y3 m0 m1 d0 d1 _
      (digy y0 (by simp)) (digy y1 (by simp)) (digy y2 (by simp)) (digy y3 (by simp))
      (digm m0 (by simp)) (digm m1 (by simp)) (digd d0 (by simp)) (digd d1 (by simp))
  · rintro ⟨i, hi⟩
    obtain ⟨c0, c1, c2, c3, c4, c5, c6, c7, c8, c9, rest, ht,
      p0, p1, p2, p3, p4, p5, p6, p7, p8, p9⟩ := dateShape_decomp _ hi
    subst p4 p7
    refine ⟨s.data.take i, [c0, c1, c2, c3], [c5, c6], [c8, c9], rest, ?_, rfl, rfl, rfl,
      ?_, ?_, ?_⟩
    · conv_lhs => rw [← List.take_append_drop i s.data]
      rw [ht]
      simp
    · intro c hc
      simp only [List.mem_cons, List.not_mem_nil, or_false] at hc
      rcases hc with rfl | rfl | rfl | rfl <;> assumption
    · intro c hc
      simp only [List.mem_cons, List.not_mem_nil, or_false] at hc
      rcases hc with rfl | rfl <;> assumption
    · intro c hc
      simp only [List.mem_cons, List.not_mem_nil, or_false] at hc
      rcases hc with rfl | rfl <;> assumption

/-! ## Claim C8 -/

/-- C8, counterexample: `"x1920-05-03"` is not `YYYY-MM-DD`-shaped as a
whole string, yet `date_to_year` returns `"1920"` for it, because
`re.search` is unanchored. -/
theorem claim_C8_counterexample :
    date_to_year "x1920-05-03" = some "1920" ∧
      isStrictDateShape "x1920-05-03" = false := by
  constructor
  · decide
  · decide

/-- C8 (amended): `date_to_year s` returns no value exactly when `s`
contains no `\d{4}-\d{2}-\d{2}`-shaped substring anywhere (the search is
unanchored, refuting the claim that every non-`YYYY-MM-DD`-shaped string
yields no value); when `s` is strictly `YYYY-MM-DD`-shaped the result is
the 4-digit year prefix of `s`. -/
theorem claim_C8_date_to_year :
    (∀ s : String, date_to_year s = none ↔ ¬ HasDateShapedSubstring s) ∧
    (∀ s : String, isStrictDateShape s = true →
      date_to_year s = some ⟨s.data.take 4⟩) := by
  constructor
  · intro s
    have hnone : date_to_year s = none ↔
        List.find? (fun i => dateShapeAt s.data i) (List.range s.data.length) = none := by
      unfold date_to_year
      cases hf : List.find? (fun i => dateShapeAt s.data i) (List.range s.data.length) <;>
        simp [hf]
    rw [hnone, hasDate_iff, List.find?_eq_none]
    constructor
    · rintro h ⟨i, hi⟩
      have hlt : i < s.data.length := by
        by_contra hge
        rw [Nat.not_lt] at hge
        have hdrop : s.data.drop i = [] := List.drop_eq_nil_of_le hge
        rw [dateShapeAt, hdrop] at hi
        simp [dateShape] at hi
      exact h i (List.mem_range.mpr hlt) hi
    · intro h i _ hp
      exact h ⟨i, hp⟩
  · intro s hs
    obtain ⟨hshape, hlen⟩ := bool_and_mp hs
    have hlen10 : s.data.length = 10 := beq_iff_eq.mp hlen
    unfold date_to_year
    rw [hlen10, show (10 : Nat) = 9 + 1 from rfl, List.range_succ_eq_map,
      List.find?_cons_of_pos _ hshape]
    simp

/-! ## Claim C9 -/

/-- C9, counterexample: `is_valid_date "1920-05-03\n"` is true in the
source (Python's `$` also matches just before a final newline), although
the entire string does not match the strict ten-character shape. -/
theorem claim_C9_counterexample :
    is_valid_date "1920-05-03\n" = true ∧
      isStrictDateShape "1920-05-03\n" = false := by
  constructor
  · decide
  · decide

/-- C9 (amended): `is_valid_date s` is true exactly when `s` matches
`\d{4}-\d{2}-\d{2}` as the entire string, or is such a match followed by a
single trailing newline (Python's `$` also matches just before a final
newline, refuting the "nothing before or after" reading); in particular
`is_valid_date "1920-05-03"` is true while `is_valid_date "1920-5-3"` and
`is_valid_date "not-a-date"` are false. -/
theorem claim_C9_is_valid_date :
    (∀ s : String, is_valid_date s = true ↔
      (isStrictDateShape s = true ∨
        ∃ t : String, s = t ++ "\n" ∧ isStrictDateShape t = true)) ∧
    is_valid_date "1920-05-03" = true ∧
    is_valid_date "1920-5-3" = false ∧
    is_valid_date "not-a-date" = false := by
  refine ⟨?_, by decide, by decide, by decide⟩
  intro s
  constructor
  · intro h
    obtain ⟨hshape, hrest⟩ := bool_and_mp h
    have hshape' : dateShape s.data = true := by
      rw [dateShapeAt, List.drop_zero] at hshape
      exact hshape
    rcases bool_or_mp hrest with h10 | h11
    · exact Or.inl (bool_and_mpr hshape h10)
    · obtain ⟨h11len, h11nl⟩ := bool_and_mp h11
      have hlen : s.data.length = 11 := beq_iff_eq.mp h11len
      obtain ⟨c0, c1, c2, c3, c4, c5, c6, c7, c8, c9, rest, ht,
        p0, p1, p2, p3, p4, p5, p6, p7, p8, p9⟩ := dateShape_decomp _ hshape'
      have hrl : rest.length = 1 := by
        rw [ht] at hlen
        simpa using hlen
      obtain ⟨r, hr⟩ := List.length_eq_one.mp hrl
      subst hr
      have hnl : r = '\n' := by
        have hg := beq_iff_eq.mp h11nl
        rw [ht] at hg
        exact hg
      subst hnl p4 p7
      refine Or.inr ⟨⟨[c0, c1, c2, c3, '-', c5, c6, '-', c8, c9]⟩, ?_, ?_⟩
      · apply String.ext
        rw [String.data_append, ht]
        rfl
      · refine bool_and_mpr ?_ ?_
        · show dateShape _ = true
          exact dateShape_build c0 c1 c2 c3 c5 c6 c8 c9 [] p0 p1 p2 p3 p5 p6 p8 p9
        · rfl
  · intro h
    rcases h with hstrict | ⟨t, hst, hstrict⟩
    · obtain ⟨hshape, hlen⟩ := bool_and_mp hstrict
      exact bool_and_mpr hshape (bool_or_mpr (Or.inl hlen))
    · subst hst
      obtain ⟨hshape, hlen⟩ := bool_and_mp hstrict
      have hlen10 : t.data.length = 10 := beq_iff_eq.mp hlen
      have hshape' : dateShape t.data = true := by
        rw [dateShapeAt, List.drop_zero] at hshape
        exact hshape
      obtain ⟨c0, c1, c2, c3, c4, c5, c6, c7, c8, c9, rest, ht,
        p0, p1, p2, p3, p4, p5, p6, p7, p8, p9⟩ := dateShape_decomp _ hshape'
      have hrl : rest.length = 0 := by
        rw [ht] at hlen10
        simpa using hlen10
      rw [List.length_eq_zero] at hrl
      subst hrl p4 p7
      refine bool_and_mpr ?_ ?_
      · show dateShape ((t ++ "\n").data.drop 0) = true
        rw [List.drop_zero, String.data_append, ht]
        simp only [List.cons_append, List.nil_append]
        exact dateShape_build c0 c1 c2 c3 c5 c6 c8 c9 _ p0 p1 p2 p3 p5 p6 p8 p9
      · refine bool_or_mpr (Or.inr (bool_and_mpr ?_ ?_))
        · rw [String.data_append, ht]
          rfl
        · rw [String.data_append, ht]
          rfl

/-! ## Helper lemmas: resource proxies -/

theorem foldl_insert_anno (k : String) : ∀ (rs : List LabeledRef)
    (acc : List ResourceProxy) (n : Nat),
    (rs.foldl (fun st l_ref =>
        (insert_resource_proxy st.1 (make_ref_xml_id k (st.2 + 1)) "Resource" l_ref.1 none,
          st.2 + 1))
      (acc, n)).1 =
      acc ++ (withIdx (n + 1) rs).map (fun p =>
        ({ id := make_ref_xml_id k p.1, resourceType := "Resource", ref := p.2.1,
           mediaType := none } : ResourceProxy)) := by
  intro rs
  induction rs with
  | nil => intro acc n; simp [withIdx]
  | cons r rs ih =>
    intro acc n
    simp only [List.foldl_cons, withIdx, List.map_cons]
    rw [ih]
    simp [insert_resource_proxy]

theorem foldl_insert_annos : ∀ (refs : List (String × List LabeledRef))
    (acc : List ResourceProxy),
    (refs.foldl (fun acc kv =>
        (kv.2.foldl (fun st l_ref =>
            (insert_resource_proxy st.1 (make_ref_xml_id kv.1 (st.2 + 1)) "Resource"
              l_ref.1 none, st.2 + 1))
          (acc, 0)).1)
      acc) = acc ++ refs.flatMap annotationProxies := by
  intro refs
  induction refs with
  | nil => intro acc; simp
  | cons kv refs ih =>
    intro acc
    simp only [List.foldl_cons]
    rw [foldl_insert_anno kv.1 kv.2 acc 0, ih]
    simp [annotationProxies]

theorem insert_resource_proxies_eq (lst : List ResourceProxy) (landing cid : String)
    (refs : List (String × List LabeledRef)) :
    insert_resource_proxies lst landing cid refs =
      lst ++ [landingProxy landing, edmDumpProxy cid, altoDumpProxy cid] ++
        refs.flatMap annotationProxies := by
  show (refs.foldl _ (insert_resource_proxy
      (insert_resource_proxy
        (insert_resource_proxy lst LANDING_PAGE_ID "LandingPage" landing none)
        EDM_DUMP_PROXY_ID "Resource" (make_edm_dump_ref cid) (some DUMP_MEDIA_TYPE))
      ALTO_DUMP_PROXY_ID "Resource" (make_alto_dump_ref cid) (some DUMP_MEDIA_TYPE))) = _
  rw [foldl_insert_annos]
  simp [insert_resource_proxy, landingProxy, edmDumpProxy, altoDumpProxy]

theorem flatMap_congr {α β : Type} : ∀ (l : List α) (f g : α → List β),
    (∀ x ∈ l, f x = g x) → l.flatMap f = l.flatMap g := by
  intro l
  induction l with
  | nil => intros; rfl
  | cons a l ih =>
    intro f g h
    simp only [List.flatMap_cons]
    rw [h a (by simp), ih f g (fun x hx => h x (by simp [hx]))]

theorem foldl_fixed {α β : Type} : ∀ (l : List α) (g : List β → α → List β)
    (acc : List β), (∀ acc' r, r ∈ l → g acc' r = acc') → l.foldl g acc = acc := by
  intro l
  induction l with
  | nil => intros; rfl
  | cons a l ih =>
    intro g acc h
    rw [List.foldl_cons, h acc a (by simp)]
    exact ih g acc (fun acc' r hr => h acc' r (by simp [hr]))

/-! ## Claim C1 -/

/-- C1 (confirmed): in a record-level build, after the three fixed proxies
(landing page, EDM dump, ALTO dump), `insert_resource_proxies` emits one
`Resource` proxy per labeled reference, iterating the identifiers in the
order of the resolved-references map produced by
`retrieve_iiif_annotation_refs`, with proxy id
`xml_id(normalizedId ++ "_anno" ++ (1-based index))` — relying on that map
being keyed by normalized identifiers (`normalize_identifier k = k` for
every key `k`). -/
theorem claim_C1_annotation_proxies (resolve : String → List (Option LabeledRef))
    (records : RecordsMap) (lst : List ResourceProxy) (landing cid : String)
    (refs : List (String × List LabeledRef))
    (href : refs = retrieve_iiif_annotation_refs resolve records)
    (hnorm : ∀ k ∈ refs.map Prod.fst, normalize_identifier k = k) :
    insert_resource_proxies lst landing cid refs =
      lst ++ [landingProxy landing, edmDumpProxy cid, altoDumpProxy cid] ++
        refs.flatMap (fun kv => (withIdx 1 kv.2).map (fun p =>
          ({ id := xml_id (normalize_identifier kv.1 ++ "_anno" ++ natRepr p.1),
             resourceType := "Resource", ref := p.2.1, mediaType := none } :
            ResourceProxy))) := by
  rw [insert_resource_proxies_eq]
  congr 1
  apply flatMap_congr
  intro kv hkv
  have hk : normalize_identifier kv.1 = kv.1 := hnorm kv.1 (List.mem_map_of_mem _ hkv)
  simp [annotationProxies, make_ref_xml_id, hk]

/-- Witness for C1 at a concrete input: one record `"123"` (a fixed point
of normalization) with one resolved labeled reference. -/
theorem claim_C1_witness :
    insert_resource_proxies [] "https://landing" "col"
        (retrieve_iiif_annotation_refs (fun _ => [some ("http://img/1.jpg", "page 1")])
          [("123", { file := none, manifest_urls := some ["u"] })]) =
      [] ++ [landingProxy "https://landing", edmDumpProxy "col", altoDumpProxy "col"] ++
        (retrieve_iiif_annotation_refs (fun _ => [some ("http://img/1.jpg", "page 1")])
          [("123", { file := none, manifest_urls := some ["u"] })]).flatMap
          (fun kv => (withIdx 1 kv.2).map (fun p =>
            ({ id := xml_id (normalize_identifier kv.1 ++ "_anno" ++ natRepr p.1),
               resourceType := "Resource", ref := p.2.1, mediaType := none } :
              ResourceProxy))) ∧
    insert_resource_proxies [] "https://landing" "col"
        (retrieve_iiif_annotation_refs (fun _ => [some ("http://img/1.jpg", "page 1")])
          [("123", { file := none, manifest_urls := some ["u"] })]) =
      [landingProxy "https://landing", edmDumpProxy "col", altoDumpProxy "col",
       { id := "_123_anno1", resourceType := "Resource", ref := "http://img/1.jpg",
         mediaType := none }] :=
  ⟨claim_C1_annotation_proxies (fun _ => [some ("http://img/1.jpg", "page 1")])
      [("123", { file := none, manifest_urls := some ["u"] })] [] "https://landing" "col"
      _ rfl (by decide),
   by decide⟩

/-! ## Claim C2 -/

/-- C2 (confirmed): if resolving labeled references for the records map
yields an empty map, `make_cmdi_record` returns no document
(`Except.ok none`, a logged skip rather than an exception); in particular
a records map whose every identifier has empty `manifest_urls` resolves to
the empty map. -/
theorem claim_C2_empty_refs_skip (resolve : String → List (Option LabeledRef))
    (parses : String → Bool) (base today dn lp rf : String) (template : CmdiDoc)
    (cid title year : String) (records : RecordsMap) (md : String) :
    (retrieve_iiif_annotation_refs resolve records = [] →
      make_cmdi_record resolve parses base today dn lp rf template cid title year
        records md = Except.ok none) ∧
    ((∀ r ∈ records, r.2.manifest_urls = some []) →
      retrieve_iiif_annotation_refs resolve records = []) := by
  constructor
  · intro h
    simp [make_cmdi_record, h]
  · intro h
    unfold retrieve_iiif_annotation_refs
    apply foldl_fixed
    intro acc' r hr
    simp only
    rw [h r hr]
    simp

/-- Witness for C2 at a concrete input: one identifier whose
`manifest_urls` is the empty list; the build returns no document. -/
theorem claim_C2_witness :
    make_cmdi_record (fun _ => []) (fun _ => true) "b" "t" "n" "l" "f"
      { header := { mdCreator := some "c", mdCreationDate := some "d",
                    mdSelfLink := some "s", mdCollectionDisplayName := some "x" },
        proxyLists := [[]], componentsRootCount := 1 } "col" "T" "1920"
      [("123", { file := none, manifest_urls := some [] })] "md" = Except.ok none := by
  have h := claim_C2_empty_refs_skip (fun _ => []) (fun _ => true) "b" "t" "n" "l" "f"
    { header := { mdCreator := some "c", mdCreationDate := some "d",
                  mdSelfLink := some "s", mdCollectionDisplayName := some "x" },
      proxyLists := [[]], componentsRootCount := 1 } "col" "T" "1920"
    [("123", { file := none, manifest_urls := some [] })] "md"
  exact h.1 (h.2 (by decide))

/-! ## Claim C3 -/

/-- C3 (code bug): the source guards the `MdSelfLink` assignment with the
`MdCreationDate` xpath result (`if creation_date_header:` instead of
`if selflink_header:`), so a template that contains `MdCreationDate` but
lacks `MdSelfLink` does not skip the self-link step silently — it raises
`IndexError` on `selflink_header[0]` (modelled as `none`), contradicting
the claimed "missing placeholders are silently skipped". -/
theorem claim_C3_header_bug :
    set_metadata_headers "https://base" "2024-01-01" "Europeana NDE"
      { mdCreator := some "creator", mdCreationDate := some "date",
        mdSelfLink := none, mdCollectionDisplayName := some "name" }
      "col" "rec.xml" = none := rfl

/-! ## Helper lemmas: uniqueness of proxy ids -/

theorem isDigitChar_underscore : isDigitChar '_' = false := by decide

theorem digit_run_split : ∀ (xs1 xs2 ys1 ys2 : List Char),
    (∀ c ∈ xs1, isDigitChar c = true) → (∀ c ∈ xs2, isDigitChar c = true) →
    xs1 ++ '_' :: ys1 = xs2 ++ '_' :: ys2 → xs1 = xs2 ∧ ys1 = ys2 := by
  intro xs1
  induction xs1 with
  | nil =>
    intro xs2 ys1 ys2 _ h2 heq
    cases xs2 with
    | nil => simpa using heq
    | cons b bs =>
      simp only [List.nil_append, List.cons_append, List.cons.injEq] at heq
      have hb := h2 b (by simp)
      rw [← heq.1] at hb
      exact absurd hb (by decide)
  | cons a as ih =>
    intro xs2 ys1 ys2 h1 h2 heq
    cases xs2 with
    | nil =>
      simp only [List.nil_append, List.cons_append, List.cons.injEq] at heq
      have ha := h1 a (by simp)
      rw [heq.1] at ha
      exact absurd ha (by decide)
    | cons b bs =>
      simp only [List.cons_append, List.cons.injEq] at heq
      obtain ⟨hab, htail⟩ := heq
      obtain ⟨hxs, hys⟩ := ih bs ys1 ys2 (fun c hc => h1 c (by simp [hc]))
        (fun c hc => h2 c (by simp [hc])) htail
      exact ⟨by rw [hab, hxs], hys⟩

theorem make_ref_xml_id_inj {k1 k2 : String} {i1 i2 : Nat}
    (h1ne : k1.data ≠ []) (h1dig : ∀ c ∈ k1.data, isDigitChar c = true)
    (h2ne : k2.data ≠ []) (h2dig : ∀ c ∈ k2.data, isDigitChar c = true)
    (heq : make_ref_xml_id k1 i1 = make_ref_xml_id k2 i2) : k1 = k2 ∧ i1 = i2 := by
  cases hk1 : k1.data with
  | nil => exact absurd hk1 h1ne
  | cons c1 r1 =>
  cases hk2 : k2.data with
  | nil => exact absurd hk2 h2ne
  | cons c2 r2 =>
  have e1 := make_ref_xml_id_data k1 i1 c1 r1 hk1 (h1dig c1 (by simp [hk1])) h1dig
  have e2 := make_ref_xml_id_data k2 i2 c2 r2 hk2 (h2dig c2 (by simp [hk2])) h2dig
  have hd := congrArg String.data heq
  rw [e1, e2] at hd
  have hd' : k1.data ++ '_' :: ('a' :: 'n' :: 'n' :: 'o' :: (natRepr i1).data) =
      k2.data ++ '_' :: ('a' :: 'n' :: 'n' :: 'o' :: (natRepr i2).data) := by
    have h1 : k1.data ++ "_anno".data ++ (natRepr i1).data =
        k1.data ++ '_' :: ('a' :: 'n' :: 'n' :: 'o' :: (natRepr i1).data) := by
      simp
    have h2 : k2.data ++ "_anno".data ++ (natRepr i2).data =
        k2.data ++ '_' :: ('a' :: 'n' :: 'n' :: 'o' :: (natRepr i2).data) := by
      simp
    rw [← h1, ← h2]
    exact List.cons.inj hd |>.2
  obtain ⟨hk, htail⟩ := digit_run_split k1.data k2.data _ _ h1dig h2dig hd'
  refine ⟨String.ext hk, ?_⟩
  simp only [List.cons.injEq, true_and] at htail
  exact natRepr_inj (String.ext htail)

theorem make_ref_xml_id_ne_fixed {k : String} {i : Nat}
    (hne : k.data ≠ []) (hdig : ∀ c ∈ k.data, isDigitChar c = true) :
    make_ref_xml_id k i ≠ LANDING_PAGE_ID ∧
    make_ref_xml_id k i ≠ EDM_DUMP_PROXY_ID ∧
    make_ref_xml_id k i ≠ ALTO_DUMP_PROXY_ID := by
  cases hk : k.data with
  | nil => exact absurd hk hne
  | cons c r =>
  have e := make_ref_xml_id_data k i c r hk (hdig c (by simp [hk])) hdig
  refine ⟨?_, ?_, ?_⟩ <;>
    · intro h
      have hd := congrArg String.data h
      rw [e] at hd
      exact absurd (List.cons.inj hd).1 (by decide)

theorem withIdx_fst_ge : ∀ (rs : List LabeledRef) (n : Nat) (p : Nat × LabeledRef),
    p ∈ withIdx n rs → n ≤ p.1 := by
  intro rs
  induction rs with
  | nil => intro n p h; simp [withIdx] at h
  | cons r rs ih =>
    intro n p h
    rcases List.mem_cons.mp h with h | h
    · subst h; simp
    · have := ih (n + 1) p h
      omega

theorem withIdx_fst_inj : ∀ (rs : List LabeledRef) (n : Nat) (p q : Nat × LabeledRef),
    p ∈ withIdx n rs → q ∈ withIdx n rs → p.1 = q.1 → p = q := by
  intro rs
  induction rs with
  | nil => intro n p q h; simp [withIdx] at h
  | cons r rs ih =>
    intro n p q hp hq hpq
    rcases List.mem_cons.mp hp with hp | hp <;> rcases List.mem_cons.mp hq with hq | hq
    · rw [hp, hq]
    · subst hp
      have := withIdx_fst_ge rs (n + 1) q hq
      omega
    · subst hq
      have := withIdx_fst_ge rs (n + 1) p hp
      omega
    · exact ih (n + 1) p q hp hq hpq

theorem withIdx_nodup : ∀ (rs : List LabeledRef) (n : Nat), (withIdx n rs).Nodup := by
  intro rs
  induction rs with
  | nil => intro n; simp [withIdx]
  | cons r rs ih =>
    intro n
    refine List.Nodup.cons ?_ (ih (n + 1))
    intro hmem
    have := withIdx_fst_ge rs (n + 1) (n, r) hmem
    omega

theorem annotation_ids_nodup (k : String) (rs : List LabeledRef)
    (hne : k.data ≠ []) (hdig : ∀ c ∈ k.data, isDigitChar c = true) :
    ((withIdx 1 rs).map (fun p => make_ref_xml_id k p.1)).Nodup := by
  apply List.Nodup.map_on _ (withIdx_nodup rs 1)
  intro x hx y hy hxy
  have := (make_ref_xml_id_inj hne hdig hne hdig hxy).2
  exact withIdx_fst_inj rs 1 x y hx hy this

theorem annotationProxies_ids (kv : String × List LabeledRef) :
    (annotationProxies kv).map ResourceProxy.id =
      (withIdx 1 kv.2).map (fun p => make_ref_xml_id kv.1 p.1) := by
  simp only [annotationProxies, List.map_map]
  rfl

theorem insert_resource_proxies_ids_nodup (landing cid : String)
    (refs : List (String × List LabeledRef))
    (hkeys : ∀ k ∈ refs.map Prod.fst, k.data ≠ [] ∧ ∀ c ∈ k.data, isDigitChar c = true)
    (hnd : (refs.map Prod.fst).Nodup) :
    ((insert_resource_proxies [] landing cid refs).map ResourceProxy.id).Nodup := by
  rw [insert_resource_proxies_eq]
  simp only [List.nil_append, List.map_append, List.map_flatMap, List.map_cons,
    List.map_nil, landingProxy, edmDumpProxy, altoDumpProxy]
  rw [List.nodup_append]
  refine ⟨by decide, ?_, ?_⟩
  · rw [List.nodup_flatMap]
    constructor
    · intro kv hkv
      obtain ⟨hne, hdig⟩ := hkeys kv.1 (List.mem_map_of_mem _ hkv)
      rw [annotationProxies_ids]
      exact annotation_ids_nodup kv.1 kv.2 hne hdig
    · have hpw : refs.Pairwise (fun a b => a.1 ≠ b.1) := List.pairwise_map.mp hnd
      refine List.Pairwise.imp_of_mem ?_ hpw
      intro a b ha hb hab
      intro x hxa hxb
      simp only [] at hxa hxb
      rw [annotationProxies_ids] at hxa hxb
      obtain ⟨p, hp, hpx⟩ := List.mem_map.mp hxa
      obtain ⟨q, hq, hqx⟩ := List.mem_map.mp hxb
      obtain ⟨hnea, hdiga⟩ := hkeys a.1 (List.mem_map_of_mem _ ha)
      obtain ⟨hneb, hdigb⟩ := hkeys b.1 (List.mem_map_of_mem _ hb)
      exact hab (make_ref_xml_id_inj hnea hdiga hneb hdigb (hpx.trans hqx.symm)).1
  · intro x hx hxf
    obtain ⟨kv, hkv, hxkv⟩ := List.mem_flatMap.mp hxf
    rw [annotationProxies_ids] at hxkv
    obtain ⟨p, hp, hpx⟩ := List.mem_map.mp hxkv
    obtain ⟨hne, hdig⟩ := hkeys kv.1 (List.mem_map_of_mem _ hkv)
    have h3 := @make_ref_xml_id_ne_fixed kv.1 p.1 hne hdig
    simp only [List.mem_cons, List.not_mem_nil, or_false] at hx
    rcases hx with rfl | rfl | rfl
    · exact h3.1 hpx
    · exact h3.2.1 hpx
    · exact h3.2.2 hpx

/-! ## Claim C5 -/

/-- C5, counterexample: the identifiers `"a!"` and `"a?"` are distinct but
collapse to the same string under the `xml_id` substitution, so a
successful record-level build emits two proxies with the same id
`"a__anno1"` — the ids are not pairwise distinct for every records map and
resolved-references map. -/
theorem claim_C5_counterexample :
    resultIsDoc (make_cmdi_record (fun _ => [some ("http://img/1.jpg", "page 1")])
        (fun _ => true) "b" "t" "n" "l" "f"
        { header := { mdCreator := some "c", mdCreationDate := some "d",
                      mdSelfLink := some "s", mdCollectionDisplayName := some "x" },
          proxyLists := [[]], componentsRootCount := 1 } "col" "T" "1920"
        [("a!", { file := none, manifest_urls := some ["u"] }),
         ("a?", { file := none, manifest_urls := some ["u"] })] "md") = true ∧
    ¬ (resultProxyIds (make_cmdi_record (fun _ => [some ("http://img/1.jpg", "page 1")])
        (fun _ => true) "b" "t" "n" "l" "f"
        { header := { mdCreator := some "c", mdCreationDate := some "d",
                      mdSelfLink := some "s", mdCollectionDisplayName := some "x" },
          proxyLists := [[]], componentsRootCount := 1 } "col" "T" "1920"
        [("a!", { file := none, manifest_urls := some ["u"] }),
         ("a?", { file := none, manifest_urls := some ["u"] })] "md")).Nodup := by
  constructor
  · decide
  · decide

/-- C5 (amended): in every document returned by a successful record-level
build whose resolved-references map is keyed by pairwise-distinct nonempty
digit runs (the normalized-identifier shape), the ids of all resource
proxies in the `ResourceProxyList` are pairwise distinct.  (Distinct
identifiers that collapse to the same string under the `xml_id`
substitution can produce duplicate ids — see `claim_C5_counterexample`.) -/
theorem claim_C5_proxy_ids_nodup (resolve : String → List (Option LabeledRef))
    (parses : String → Bool) (base today dn lp rf : String) (hdr : CmdiHeader)
    (cnt : Nat) (cid title year : String) (records : RecordsMap) (md : String)
    (hkeys : ∀ k ∈ (retrieve_iiif_annotation_refs resolve records).map Prod.fst,
      k.data ≠ [] ∧ ∀ c ∈ k.data, isDigitChar c = true)
    (hnd : ((retrieve_iiif_annotation_refs resolve records).map Prod.fst).Nodup) :
    ∀ doc, make_cmdi_record resolve parses base today dn lp rf
        { header := hdr, proxyLists := [[]], componentsRootCount := cnt }
        cid title year records md = Except.ok (some doc) →
      (docProxyIds doc).Nodup := by
  intro doc h
  unfold make_cmdi_record at h
  by_cases h0 : (retrieve_iiif_annotation_refs resolve records).length = 0
  · simp [h0] at h
  · simp only [h0, if_false] at h
    cases hset : set_metadata_headers base today dn hdr cid rf with
    | none => rw [hset] at h; simp at h
    | some header1 =>
      rw [hset] at h
      simp only [] at h
      by_cases hcnt : cnt = 1
      · simp only [hcnt, if_true] at h
        have hX := Option.some.inj (Except.ok.inj h)
        subst hX
        simp only [docProxyIds, docProxies, List.flatten_cons, List.flatten_nil,
          List.append_nil]
        exact insert_resource_proxies_ids_nodup lp cid _ hkeys hnd
      · simp [hcnt] at h

/-- Witness for C5 at a concrete input: one identifier `"123"` (a nonempty
digit run); the successful build's proxy ids are pairwise distinct. -/
theorem claim_C5_witness :
    (docProxyIds
      { header := { mdCreator := some "aggregation_cmdi_creation.py",
                    mdCreationDate := some "t", mdSelfLink := some "b/col/f",
                    mdCollectionDisplayName := some "n" },
        proxyLists := [[{ id := "landing_page", resourceType := "LandingPage",
                          ref := "l", mediaType := none },
                        { id := "archive_edm", resourceType := "Resource",
                          ref := "ftp://download.europeana.eu/newspapers/fulltext/edm_issue/col.zip",
                          mediaType := some "application/zip" },
                        { id := "archive_alto", resourceType := "Resource",
                          ref := "ftp://download.europeana.eu/newspapers/fulltext/alto/col.zip",
                          mediaType := some "application/zip" },
                        { id := "_123_anno1", resourceType := "Resource",
                          ref := "http://img/1.jpg", mediaType := none }]],
        componentsRootCount := 1 }).Nodup :=
  claim_C5_proxy_ids_nodup (fun _ => [some ("http://img/1.jpg", "page 1")])
    (fun _ => true) "b" "t" "n" "l" "f"
    { mdCreator := some "c", mdCreationDate := some "d", mdSelfLink := some "s",
      mdCollectionDisplayName := some "x" }
    1 "col" "T" "1920" [("123", { file := none, manifest_urls := some ["u"] })] "md"
    (by decide) (by decide) _ rfl

/-! ## Helper lemmas: lexicographic order and sorting -/

theorem lexLe_refl : ∀ l : List Char, lexLe l l = true := by
  intro l
  induction l with
  | nil => rfl
  | cons a as ih => simp [lexLe, ih]

theorem strLe_refl (s : String) : strLe s s = true := lexLe_refl s.data

theorem lexLe_total : ∀ l1 l2 : List Char, lexLe l1 l2 = true ∨ lexLe l2 l1 = true := by
  intro l1
  induction l1 with
  | nil => intro l2; left; rfl
  | cons a as ih =>
    intro l2
    cases l2 with
    | nil => right; rfl
    | cons b bs =>
      rcases Nat.lt_trichotomy a.toNat b.toNat with h | h | h
      · left; simp [lexLe, h]
      · rcases ih bs with h2 | h2
        · left
          simp [lexLe, h, h2]
        · right
          simp [lexLe, h.symm, h2]
      · right; simp [lexLe, h]

theorem lexLe_trans : ∀ l1 l2 l3 : List Char, lexLe l1 l2 = true →
    lexLe l2 l3 = true → lexLe l1 l3 = true := by
  intro l1
  induction l1 with
  | nil => intros; rfl
  | cons a as ih =>
    intro l2 l3 h12 h23
    cases l2 with
    | nil => simp [lexLe] at h12
    | cons b bs =>
      cases l3 with
      | nil => simp [lexLe] at h23
      | cons c cs =>
        by_cases hab : a.toNat < b.toNat <;> by_cases hbc : b.toNat < c.toNat
        · simp [lexLe, show a.toNat < c.toNat by omega]
        · simp only [lexLe, hbc, if_false] at h23
          by_cases hbc2 : b.toNat = c.toNat
          · simp [lexLe, show a.toNat < c.toNat by omega]
          · simp [hbc2] at h23
        · simp only [lexLe, hab, if_false] at h12
          by_cases hab2 : a.toNat = b.toNat
          · simp [lexLe, show a.toNat < c.toNat by omega]
          · simp [hab2] at h12
        · simp only [lexLe, hab, if_false] at h12
          simp only [lexLe, hbc, if_false] at h23
          by_cases hab2 : a.toNat = b.toNat
          · by_cases hbc2 : b.toNat = c.toNat
            · simp only [hab2, if_pos rfl] at h12
              simp only [hbc2, if_pos rfl] at h23
              simp [lexLe, show ¬ a.toNat < c.toNat by omega,
                show a.toNat = c.toNat by omega, ih bs cs h12 h23]
            · simp [hbc2] at h23
          · simp [hab2] at h12

theorem strLe_total (a b : String) : strLe a b = true ∨ strLe b a = true :=
  lexLe_total a.data b.data

theorem strLe_trans (a b c : String) (h1 : strLe a b = true) (h2 : strLe b c = true) :
    strLe a c = true :=
  lexLe_trans a.data b.data c.data h1 h2

theorem insertSorted_perm (a : String) : ∀ l, (insertSorted a l).Perm (a :: l) := by
  intro l
  induction l with
  | nil => exact List.Perm.refl _
  | cons b bs ih =>
    unfold insertSorted
    by_cases h : strLe a b = true
    · rw [if_pos h]
    · rw [if_neg h]
      exact (ih.cons b).trans (List.Perm.swap a b bs)

theorem sortedStrings_perm : ∀ l, (sortedStrings l).Perm l := by
  intro l
  induction l with
  | nil => exact List.Perm.refl _
  | cons a as ih =>
    exact (insertSorted_perm a (sortedStrings as)).trans (ih.cons a)

theorem insertSorted_pairwise (a : String) : ∀ l,
    l.Pairwise (fun x y => strLe x y = true) →
    (insertSorted a l).Pairwise (fun x y => strLe x y = true) := by
  intro l
  induction l with
  | nil =>
    intro _
    simp [insertSorted]
  | cons b bs ih =>
    intro hp
    obtain ⟨hb, hbs⟩ := List.pairwise_cons.mp hp
    unfold insertSorted
    by_cases h : strLe a b = true
    · rw [if_pos h]
      refine List.pairwise_cons.mpr ⟨?_, hp⟩
      intro y hy
      rcases List.mem_cons.mp hy with rfl | hy
      · exact h
      · exact strLe_trans a b y h (hb y hy)
    · rw [if_neg h]
      refine List.pairwise_cons.mpr ⟨?_, ih hbs⟩
      intro y hy
      have hy' := (insertSorted_perm a bs).mem_iff.mp hy
      rcases List.mem_cons.mp hy' with rfl | hy2
      · rcases strLe_total y b with h2 | h2
        · exact absurd h2 h
        · exact h2
      · exact hb y hy2

theorem sortedStrings_pairwise : ∀ l,
    (sortedStrings l).Pairwise (fun x y => strLe x y = true) := by
  intro l
  induction l with
  | nil => exact List.Pairwise.nil
  | cons a as ih => exact insertSorted_pairwise a (sortedStrings as) ih

theorem pairwise_head_le (x : String) (t : List String)
    (h : (x :: t).Pairwise (fun a b => strLe a b = true)) :
    ∀ y ∈ x :: t, strLe x y = true := by
  intro y hy
  rcases List.mem_cons.mp hy with rfl | hy
  · exact strLe_refl y
  · exact (List.pairwise_cons.mp h).1 y hy

theorem pairwise_le_getLast : ∀ (l : List String) (h : l ≠ []),
    l.Pairwise (fun a b => strLe a b = true) →
    ∀ y ∈ l, strLe y (l.getLast h) = true := by
  intro l
  induction l with
  | nil => intro h; exact absurd rfl h
  | cons x t ih =>
    intro h hp y hy
    obtain ⟨hx, ht⟩ := List.pairwise_cons.mp hp
    cases t with
    | nil =>
      simp only [List.mem_singleton] at hy
      subst hy
      exact strLe_refl y
    | cons z zs =>
      have hzs : z :: zs ≠ [] := List.cons_ne_nil z zs
      have hlast : (x :: z :: zs).getLast h = (z :: zs).getLast hzs :=
        List.getLast_cons hzs
      rcases List.mem_cons.mp hy with rfl | hy2
      · rw [hlast]
        exact hx _ (List.getLast_mem hzs)
      · rw [hlast]
        exact ih hzs ht y hy2

/-! ## Helper lemmas: collection build -/

theorem collection_proxies_foldl (base cid : String)
    (yf : List (String × String)) : ∀ (ys : List String) (acc : List ResourceProxy),
    (ys.foldl (fun acc year => insert_resource_proxy acc (xml_id year) "Metadata"
        (base ++ "/" ++ cid ++ "/" ++ ((yf.lookup year).getD "")) none) acc) =
      acc ++ ys.map (metadataYearProxy base cid yf) := by
  intro ys
  induction ys with
  | nil => intro acc; simp
  | cons y ys ih =>
    intro acc
    rw [List.foldl_cons, ih]
    simp [insert_resource_proxy, metadataYearProxy]

theorem collection_insert_resource_proxies_eq (base lp : String)
    (lst : List ResourceProxy) (yf : List (String × String)) (cid : String) :
    collection_insert_resource_proxies base lp lst yf cid =
      lst ++ [landingProxy lp, edmDumpProxy cid, altoDumpProxy cid] ++
        (sortedStrings (yf.map Prod.fst)).map (metadataYearProxy base cid yf) := by
  show ((sortedStrings (yf.map Prod.fst)).foldl _ (insert_resource_proxy
      (insert_resource_proxy
        (insert_resource_proxy lst LANDING_PAGE_ID "LandingPage" lp none)
        EDM_DUMP_PROXY_ID "Resource" (make_edm_dump_ref cid) (some DUMP_MEDIA_TYPE))
      ALTO_DUMP_PROXY_ID "Resource" (make_alto_dump_ref cid) (some DUMP_MEDIA_TYPE))) = _
  rw [collection_proxies_foldl]
  simp [insert_resource_proxy, landingProxy, edmDumpProxy, altoDumpProxy]

theorem lookup_of_nodup : ∀ (yf : List (String × String)),
    (yf.map Prod.fst).Nodup → ∀ p ∈ yf, yf.lookup p.1 = some p.2 := by
  intro yf
  induction yf with
  | nil => intro _ p hp; simp at hp
  | cons q yf ih =>
    intro hnd p hp
    obtain ⟨hq, hyf⟩ := List.pairwise_cons.mp hnd
    rcases List.mem_cons.mp hp with rfl | hp2
    · simp [List.lookup]
    · have hne : p.1 ≠ q.1 := by
        intro he
        exact hq p.1 (List.mem_map_of_mem _ hp2) he.symm
      have hbeq : (p.1 == q.1) = false := beq_eq_false_iff_ne.mpr hne
      simp only [List.lookup, hbeq]
      exact ih hyf p hp2

theorem subres_foldl_temporal (title : String) :
    ∀ (ys : List String) (c : MetadataCollectionComponents),
    (ys.foldl (fun c year =>
        { c with subresources := c.subresources ++
          [{ ref := xml_id year, label := title ++ " - " ++ year,
             temporalLabel := some year }] }) c).temporalCoverage =
      c.temporalCoverage := by
  intro ys
  induction ys with
  | nil => intro c; rfl
  | cons y ys ih => intro c; rw [List.foldl_cons, ih]

theorem collection_subresources_temporal (c : MetadataCollectionComponents)
    (title : String) (yf : List (String × String)) :
    (collection_insert_subresource_info c title yf).temporalCoverage =
      c.temporalCoverage := by
  unfold collection_insert_subresource_info insert_dump_subresource_info
  rw [subres_foldl_temporal]

theorem make_collection_record_eq (parses : String → Bool)
    (base today dn lp fn : String) (hdr header1 : CmdiHeader)
    (comps0 : MetadataCollectionComponents) (cid title : String)
    (year_files : List (String × String)) (irm : RecordsMap) (md : String)
    (hset : set_metadata_headers base today dn hdr cid fn = some header1)
    (y0 : String) (rest : List String)
    (hsorted : sortedStrings (year_files.map Prod.fst) = y0 :: rest) :
    make_collection_record parses base today dn lp fn
        { header := hdr, proxyLists := [[]], componentsRootCount := 1,
          components := comps0 } cid title year_files irm md =
      Except.ok (some
        { header := header1,
          proxyLists := [[landingProxy lp, edmDumpProxy cid, altoDumpProxy cid] ++
            (y0 :: rest).map (metadataYearProxy base cid year_files)],
          componentsRootCount := 1,
          components := collection_insert_subresource_info
            (collection_insert_temporal_coverage
              (collection_insert_title_and_description comps0 title (y0 :: rest))
              y0 ((y0 :: rest).getLast (List.cons_ne_nil y0 rest)))
            title year_files }) := by
  unfold make_collection_record
  dsimp only
  rw [hset]
  dsimp only
  have h11 : (1 : Nat) = 1 := rfl
  rw [if_pos h11]
  unfold collection_insert_component_content
  rw [hsorted]
  dsimp only
  rw [collection_insert_resource_proxies_eq, hsorted]
  simp

/-! ## Claim C6 -/

/-- C6 (confirmed): for every collection-level build with a non-empty
year-to-filename map (keys distinct, shape-valid template, headers not
hitting the self-link bug), the resource proxies after the landing page
and the two dump proxies are exactly one `Metadata`-type proxy per year,
in ascending sorted year order, with id `xml_id year` and reference
`base/collectionId/yearToFileName[year]`, and the temporal coverage has
start equal to the minimum and end equal to the maximum year of the map
(order is Python's code-point string order `strLe`). -/
theorem claim_C6_collection_build (parses : String → Bool)
    (base today dn lp fn : String) (hdr : CmdiHeader)
    (comps0 : MetadataCollectionComponents) (cid title : String)
    (year_files : List (String × String)) (irm : RecordsMap) (md : String)
    (hhdr : set_metadata_headers base today dn hdr cid fn ≠ none)
    (hne : year_files ≠ [])
    (hnd : (year_files.map Prod.fst).Nodup) :
    (make_collection_record parses base today dn lp fn
        { header := hdr, proxyLists := [[]], componentsRootCount := 1,
          components := comps0 } cid title year_files irm md ≠ Except.error ()) ∧
    (make_collection_record parses base today dn lp fn
        { header := hdr, proxyLists := [[]], componentsRootCount := 1,
          components := comps0 } cid title year_files irm md ≠ Except.ok none) ∧
    (∀ doc, make_collection_record parses base today dn lp fn
        { header := hdr, proxyLists := [[]], componentsRootCount := 1,
          components := comps0 } cid title year_files irm md =
          Except.ok (some doc) →
      doc.proxyLists = [[landingProxy lp, edmDumpProxy cid, altoDumpProxy cid] ++
          (sortedStrings (year_files.map Prod.fst)).map
            (metadataYearProxy base cid year_files)] ∧
      (sortedStrings (year_files.map Prod.fst)).Pairwise
        (fun a b => strLe a b = true) ∧
      (sortedStrings (year_files.map Prod.fst)).Perm (year_files.map Prod.fst) ∧
      (∀ p ∈ year_files, year_files.lookup p.1 = some p.2) ∧
      doc.components.temporalCoverage ≠ none ∧
      (∀ tc, doc.components.temporalCoverage = some tc →
        tc.label = tc.startYear ++ " - " ++ tc.endYear ∧
        tc.startYear ∈ year_files.map Prod.fst ∧
        tc.endYear ∈ year_files.map Prod.fst ∧
        ∀ y ∈ year_files.map Prod.fst,
          strLe tc.startYear y = true ∧ strLe y tc.endYear = true)) := by
  cases hset : set_metadata_headers base today dn hdr cid fn with
  | none => exact absurd hset hhdr
  | some header1 =>
    have hkeys : year_files.map Prod.fst ≠ [] := by
      cases year_files with
      | nil => exact absurd rfl hne
      | cons q qs => simp
    have hlen := (sortedStrings_perm (year_files.map Prod.fst)).length_eq
    cases hs : sortedStrings (year_files.map Prod.fst) with
    | nil =>
      rw [hs] at hlen
      exact absurd (List.length_eq_zero.mp hlen.symm) hkeys
    | cons y0 rest =>
    have main := make_collection_record_eq parses base today dn lp fn hdr header1
      comps0 cid title year_files irm md hset y0 rest hs
    refine ⟨?_, ?_, ?_⟩
    · rw [main]; simp
    · rw [main]; simp
    · intro doc h
      have hXdoc := Option.some.inj (Except.ok.inj (main.symm.trans h))
      subst hXdoc
      have hp := sortedStrings_pairwise (year_files.map Prod.fst)
      rw [hs] at hp
      have hperm := sortedStrings_perm (year_files.map Prod.fst)
      have hperm' := hperm
      rw [hs] at hperm'
      have htc : (collection_insert_subresource_info
          (collection_insert_temporal_coverage
            (collection_insert_title_and_description comps0 title (y0 :: rest))
            y0 ((y0 :: rest).getLast (List.cons_ne_nil y0 rest)))
          title year_files).temporalCoverage =
          some { label := y0 ++ " - " ++ ((y0 :: rest).getLast (List.cons_ne_nil y0 rest)),
                 startYear := y0,
                 endYear := (y0 :: rest).getLast (List.cons_ne_nil y0 rest) } := by
        rw [collection_subresources_temporal]
        rfl
      refine ⟨rfl, hp, hperm', lookup_of_nodup year_files hnd, ?_, ?_⟩
      · simp [htc]
      · intro tc htc2
        rw [htc] at htc2
        have htc3 := Option.some.inj htc2
        subst htc3
        refine ⟨rfl, ?_, ?_, ?_⟩
        · exact hperm'.mem_iff.mp (List.mem_cons_self y0 rest)
        · exact hperm'.mem_iff.mp (List.getLast_mem (List.cons_ne_nil y0 rest))
        · intro y hy
          have hy' : y ∈ y0 :: rest := hperm'.mem_iff.mpr hy
          exact ⟨pairwise_head_le y0 rest hp y hy',
            pairwise_le_getLast (y0 :: rest) (List.cons_ne_nil y0 rest) hp y hy'⟩

/-- Witness for C6 at a concrete input: two years supplied in descending
order; the build succeeds, emits the year proxies in ascending order, and
spans 1920-1921. -/
theorem claim_C6_witness :
    (make_collection_record (fun _ => true) "b" "t" "n" "l" "f"
        { header := { mdCreator := some "c", mdCreationDate := some "d",
                      mdSelfLink := some "s", mdCollectionDisplayName := some "x" },
          proxyLists := [[]], componentsRootCount := 1,
          components := { titleInfo := none, description := none,
                          temporalCoverage := none, subresources := [] } }
        "col" "T" [("1921", "f1921.xml"), ("1920", "f1920.xml")] [] "md" ≠
      Except.ok none) ∧
    collTemporal (make_collection_record (fun _ => true) "b" "t" "n" "l" "f"
        { header := { mdCreator := some "c", mdCreationDate := some "d",
                      mdSelfLink := some "s", mdCollectionDisplayName := some "x" },
          proxyLists := [[]], componentsRootCount := 1,
          components := { titleInfo := none, description := none,
                          temporalCoverage := none, subresources := [] } }
        "col" "T" [("1921", "f1921.xml"), ("1920", "f1920.xml")] [] "md") =
      some { label := "1920 - 1921", startYear := "1920", endYear := "1921" } ∧
    collProxyLists (make_collection_record (fun _ => true) "b" "t" "n" "l" "f"
        { header := { mdCreator := some "c", mdCreationDate := some "d",
                      mdSelfLink := some "s", mdCollectionDisplayName := some "x" },
          proxyLists := [[]], componentsRootCount := 1,
          components := { titleInfo := none, description := none,
                          temporalCoverage := none, subresources := [] } }
        "col" "T" [("1921", "f1921.xml"), ("1920", "f1920.xml")] [] "md") =
      [[{ id := "landing_page", resourceType := "LandingPage", ref := "l",
          mediaType := none },
        { id := "archive_edm", resourceType := "Resource",
          ref := "ftp://download.europeana.eu/newspapers/fulltext/edm_issue/col.zip",
          mediaType := some "application/zip" },
        { id := "archive_alto", resourceType := "Resource",
          ref := "ftp://download.europeana.eu/newspapers/fulltext/alto/col.zip",
          mediaType := some "application/zip" },
        { id := "_1920", resourceType := "Metadata", ref := "b/col/f1920.xml",
          mediaType := none },
        { id := "_1921", resourceType := "Metadata", ref := "b/col/f1921.xml",
          mediaType := none }]] := by
  have h := claim_C6_collection_build (fun _ => true) "b" "t" "n" "l" "f"
    { mdCreator := some "c", mdCreationDate := some "d", mdSelfLink := some "s",
      mdCollectionDisplayName := some "x" }
    { titleInfo := none, description := none, temporalCoverage := none,
      subresources := [] }
    "col" "T" [("1921", "f1921.xml"), ("1920", "f1920.xml")] [] "md"
    (by decide) (by decide) (by decide)
  exact ⟨h.2.1, by decide, by decide⟩

/-! ## Claim C10 -/

/-- C10 (confirmed): the collection builder has an implicit non-emptiness
precondition on the year-to-filename map.  With a shape-valid template
(and headers that do not trigger the separate self-link bug), an empty
year map makes `sorted_years[0]` in the component-content step raise
`IndexError` — the build neither returns a document nor the well-defined
`None` signal; with a non-empty map the accesses are in bounds and no
exception escapes. -/
theorem claim_C10_empty_year_map (parses : String → Bool)
    (base today dn lp fn : String) (hdr : CmdiHeader)
    (comps0 : MetadataCollectionComponents) (cid title : String)
    (irm : RecordsMap) (md : String)
    (hhdr : set_metadata_headers base today dn hdr cid fn ≠ none) :
    (make_collection_record parses base today dn lp fn
        { header := hdr, proxyLists := [[]], componentsRootCount := 1,
          components := comps0 } cid title [] irm md = Except.error ()) ∧
    (∀ year_files : List (String × String), year_files ≠ [] →
      make_collection_record parses base today dn lp fn
        { header := hdr, proxyLists := [[]], componentsRootCount := 1,
          components := comps0 } cid title year_files irm md ≠
        Except.error ()) := by
  cases hset : set_metadata_headers base today dn hdr cid fn with
  | none => exact absurd hset hhdr
  | some header1 =>
    constructor
    · unfold make_collection_record
      dsimp only
      rw [hset]
      dsimp only
      rw [if_pos (rfl : (1 : Nat) = 1)]
      rfl
    · intro year_files hys
      have hkeys : year_files.map Prod.fst ≠ [] := by
        cases year_files with
        | nil => exact absurd rfl hys
        | cons q qs => simp
      have hlen := (sortedStrings_perm (year_files.map Prod.fst)).length_eq
      cases hs : sortedStrings (year_files.map Prod.fst) with
      | nil =>
        rw [hs] at hlen
        exact absurd (List.length_eq_zero.mp hlen.symm) hkeys
      | cons y0 rest =>
        rw [make_collection_record_eq parses base today dn lp fn hdr header1
          comps0 cid title year_files irm md hset y0 rest hs]
        simp

/-- Witness for C10 at a concrete input: an empty year map with a
shape-valid template makes the build raise (modelled `Except.error ()`). -/
theorem claim_C10_witness :
    make_collection_record (fun _ => true) "b" "t" "n" "l" "f"
      { header := { mdCreator := some "c", mdCreationDate := some "d",
                    mdSelfLink := some "s", mdCollectionDisplayName := some "x" },
        proxyLists := [[]], componentsRootCount := 1,
        components := { titleInfo := none, description := none,
                        temporalCoverage := none, subresources := [] } }
      "col" "T" [] [] "md" = Except.error () :=
  (claim_C10_empty_year_map (fun _ => true) "b" "t" "n" "l" "f"
    { mdCreator := some "c", mdCreationDate := some "d", mdSelfLink := some "s",
      mdCollectionDisplayName := some "x" }
    { titleInfo := none, description := none, temporalCoverage := none,
      subresources := [] }
    "col" "T" [] "md" (by decide)).1

/-! ## Remaining witnesses -/

/-- Witness for C4 at a concrete input: `xml_id "9!"` is nonempty (and
evaluates to `"_9_"`). -/
theorem claim_C4_witness : (xml_id "9!").data ≠ [] ∧ xml_id "9!" = "_9_" :=
  ⟨(claim_C4_xml_id_class "9!").1, by decide⟩

/-- Witness for C8 at a concrete input: the strictly shaped string
`"1920-05-03"` yields its 4-digit year prefix. -/
theorem claim_C8_witness : date_to_year "1920-05-03" = some "1920" := by
  have h := claim_C8_date_to_year.2 "1920-05-03" (by decide)
  exact h.trans (by decide)

/-- Witness for C9 at a concrete input: the trailing-newline variant is
accepted via the right-hand disjunct. -/
theorem claim_C9_witness : is_valid_date "1920-05-03\n" = true :=
  (claim_C9_is_valid_date.1 "1920-05-03\n").mpr
    (Or.inr ⟨"1920-05-03", by decide, by decide⟩)
